import Mathlib

/-!
# Block registry of `server/world/block.go`

A shallow embedding of the block registry (`RegisterBlock`, `BlockRuntimeID`,
`slowBlockRuntimeID`, `BlockByRuntimeID`, `air`, `BlockByName`, `CustomBlocks`) together
with the package-level tables these functions read and write.  The package variables are
collected in one record, `Registry`, that every function receives and (for
`RegisterBlock`) returns.  A Go `panic` is an explicit result that also carries the
tables as they stand when the panic is raised.
-/

namespace World

/-! ## Machine integers -/

/-- The constant `math.MaxUint64`. -/
def MaxUint64 : Nat := 2 ^ 64 - 1

/-- The Go conversion `int64(h)` of a `uint64` value: two's complement reinterpretation. -/
def int64 (h : Nat) : Int :=
  if h % 2 ^ 64 < 2 ^ 63 then ((h % 2 ^ 64 : Nat) : Int) else ((h % 2 ^ 64 : Nat) : Int) - 2 ^ 64

/-- The Go conversion `uint32(v)` of an `int64` value: the low 32 bits. -/
def uint32 (v : Int) : Nat := (v % 2 ^ 32).toNat

/-! ## The hash index (`intintmap.Map`)

`github.com/brentp/intintmap` is an `int64 -> int64` map; only `Get` and `Put` are used. -/

/-- An `intintmap.Map`, as its list of entries. -/
abbrev IntIntMap := List (Int × Int)

/-- The call `m.Get(key)`: the value stored under `key`, if any. -/
def IntIntMap.Get : IntIntMap → Int → Option Int
  | [], _ => none
  | (k, v) :: rest, key => if k = key then some v else IntIntMap.Get rest key

/-- The call `m.Put(key, val)`: stores `val` under `key`, replacing an earlier value. -/
def IntIntMap.Put : IntIntMap → Int → Int → IntIntMap
  | [], key, val => [(key, val)]
  | (k, v) :: rest, key, val =>
      if k = key then (k, val) :: rest else (k, v) :: IntIntMap.Put rest key val

/-! ## Blocks -/

/-- A value of a property mapping `map[string]any`. -/
inductive PropValue where
  | int32 (v : Int)
  | uint8 (v : Nat)
  | bool (v : Bool)
  | str (v : String)
  deriving DecidableEq, Repr

/-- A property mapping `map[string]any`, as its list of entries (`nil` is the empty list). -/
abbrev Properties := List (String × PropValue)

/-- The struct `blockState{Name, Properties}` built on line 94. -/
structure blockState where
  Name : String
  Properties : Properties
  deriving DecidableEq, Repr

/-- The struct `stateHash{name, properties}` that keys `stateRuntimeIDs`. -/
structure stateHash where
  name : String
  properties : List (String × PropValue)
  deriving DecidableEq, Repr

/-- The order of keys: lexicographic by code point, as Go compares strings of ASCII keys. -/
def keyLE : List Char → List Char → Bool
  | [], _ => true
  | _ :: _, [] => false
  | a :: as, b :: bs =>
      if a.toNat < b.toNat then true else if b.toNat < a.toNat then false else keyLE as bs

/-- Inserts an entry into a list of entries that is ordered by key. -/
def insertProperty (e : String × PropValue) : List (String × PropValue) → List (String × PropValue)
  | [] => [e]
  | x :: rest =>
      if keyLE e.1.data x.1.data then e :: x :: rest else x :: insertProperty e rest

/-- Modelled from the spec: `hashProperties` is declared outside the files at hand; the
spec (section 3) asks that the property mapping be "canonicalized (e.g., sorted by key)
before hashing/comparison".  The canonical form here is the entry list ordered by key. -/
def hashProperties (properties : Properties) : List (String × PropValue) :=
  properties.foldr insertProperty []

/-- A value of the interface `Block` that comes from an implementing package, described by
what the registry observes of it: the results of `EncodeBlock` and `Hash`, the outcome of
each type assertion made by `RegisterBlock`, and the remaining data of the value. -/
structure BlockValue where
  /-- First result of `EncodeBlock()`. -/
  name : String
  /-- Second result of `EncodeBlock()`. -/
  properties : Properties
  /-- Result of `Hash()`, read modulo `2 ^ 64` by `Block.Hash`. -/
  hash : Nat
  /-- Whether `b.(CustomBlock)` succeeds. -/
  customBlock : Bool
  /-- The level `LightDiffusionLevel()` when `b.(lightDiffuser)` succeeds. -/
  lightDiffuser : Option Nat
  /-- The level `LightEmissionLevel()` when `b.(lightEmitter)` succeeds. -/
  lightEmitter : Option Nat
  /-- Whether `b.(NBTer)` succeeds. -/
  nbter : Bool
  /-- Whether `b.(RandomTicker)` succeeds. -/
  randomTicker : Bool
  /-- Whether `b.(Liquid)` succeeds. -/
  liquid : Bool
  /-- Whether `b.(LiquidDisplacer)` succeeds. -/
  liquidDisplacer : Bool
  /-- The fields of the value that neither `EncodeBlock` nor `Hash` reports. -/
  payload : Nat
  deriving DecidableEq, Repr

/-- A value of the interface `Block`: a value of the package's own type `unknownBlock`,
the "unregistered" sentinel that stands for a block state, or a value of an implementing
package.  Both are values that `RegisterBlock` and `BlockRuntimeID` can be given and that
`BlockByRuntimeID` and `BlockByName` return; the type assertion of line 102 tells them
apart. -/
inductive Block where
  | unknownBlock (state : blockState)
  | value (v : BlockValue)
  deriving DecidableEq, Repr

/-- Modelled from the spec: the type `unknownBlock` and its methods are declared outside
the files at hand.  It is the "unregistered" sentinel block of a registry slot (spec,
section 3, Registry Slot): it embeds the `blockState` it stands for and encodes as that
state, and it has "no stable hash available" and reports the sentinel hash (section 3,
BlockHash).  The spec gives the sentinel no capability, so it is taken to implement none
of the optional interfaces that `RegisterBlock` probes. -/
def unknownBlockValue (state : blockState) : BlockValue :=
  { name := state.Name, properties := state.Properties, hash := MaxUint64,
    customBlock := false, lightDiffuser := none, lightEmitter := none, nbter := false,
    randomTicker := false, liquid := false, liquidDisplacer := false, payload := 0 }

/-- What the registry observes of a block. -/
def Block.observed : Block → BlockValue
  | .unknownBlock state => unknownBlockValue state
  | .value v => v

/-- The type assertion `b.(unknownBlock)` of line 102. -/
def Block.isUnknownBlock : Block → Bool
  | .unknownBlock _ => true
  | .value _ => false

/-- First result of `EncodeBlock()`. -/
def Block.name (b : Block) : String := b.observed.name

/-- Second result of `EncodeBlock()`. -/
def Block.properties (b : Block) : Properties := b.observed.properties

/-- Result of `Hash()`, read modulo `2 ^ 64` by `Block.Hash`. -/
def Block.hash (b : Block) : Nat := b.observed.hash

/-- Whether `b.(CustomBlock)` succeeds. -/
def Block.customBlock (b : Block) : Bool := b.observed.customBlock

/-- The level `LightDiffusionLevel()` when `b.(lightDiffuser)` succeeds. -/
def Block.lightDiffuser (b : Block) : Option Nat := b.observed.lightDiffuser

/-- The level `LightEmissionLevel()` when `b.(lightEmitter)` succeeds. -/
def Block.lightEmitter (b : Block) : Option Nat := b.observed.lightEmitter

/-- Whether `b.(NBTer)` succeeds. -/
def Block.nbter (b : Block) : Bool := b.observed.nbter

/-- Whether `b.(RandomTicker)` succeeds. -/
def Block.randomTicker (b : Block) : Bool := b.observed.randomTicker

/-- Whether `b.(Liquid)` succeeds. -/
def Block.liquid (b : Block) : Bool := b.observed.liquid

/-- Whether `b.(LiquidDisplacer)` succeeds. -/
def Block.liquidDisplacer (b : Block) : Bool := b.observed.liquidDisplacer

/-- The method `EncodeBlock()`: name and properties of the block. -/
def Block.EncodeBlock (b : Block) : String × Properties := (b.name, b.properties)

/-- The method `Hash()`, a `uint64`. -/
def Block.Hash (b : Block) : Nat := b.hash % 2 ^ 64

/-- The key under which the state catalog files the descriptor `(name, properties)`:
`stateHash{name: name, properties: hashProperties(properties)}`. -/
def stateKey (name : String) (properties : Properties) : stateHash :=
  { name := name, properties := hashProperties properties }

/-! ## The registry state -/

/-- The package-level tables read and written by the registry functions. -/
structure Registry where
  /-- The map `stateRuntimeIDs`: the State Catalog. -/
  stateRuntimeIDs : List (stateHash × Nat)
  /-- The slice `blocks`: a slot holds the `unknownBlock` of its state until
  `RegisterBlock` stores a block in it. -/
  blocks : List Block
  /-- The map `hashes`: the Hash Index. -/
  hashes : IntIntMap
  /-- The variable `airRID`. -/
  airRID : Nat
  /-- The side table written by `registerBlockState`. -/
  customBlockStates : List (blockState × Bool)
  /-- The slice `chunk.FilteringBlocks`. -/
  FilteringBlocks : List Nat
  /-- The slice `chunk.LightBlocks`. -/
  LightBlocks : List Nat
  /-- The slice `nbtBlocks`. -/
  nbtBlocks : List Bool
  /-- The slice `randomTickBlocks`. -/
  randomTickBlocks : List Bool
  /-- The slice `liquidBlocks`. -/
  liquidBlocks : List Bool
  /-- The slice `liquidDisplacingBlocks`. -/
  liquidDisplacingBlocks : List Bool
  /-- The map `customBlocks`. -/
  customBlocks : List (String × Block)
  deriving DecidableEq, Repr

/-- The map read `stateRuntimeIDs[key]`; the values of the map are `uint32`. -/
def lookupState : List (stateHash × Nat) → stateHash → Option Nat
  | [], _ => none
  | (k, v) :: rest, key => if k = key then some (v % 2 ^ 32) else lookupState rest key

/-- The map read `customBlocks[name]`. -/
def lookupCustom : List (String × Block) → String → Option Block
  | [], _ => none
  | (k, v) :: rest, name => if k = name then some v else lookupCustom rest name

/-- The slice write `l[i] = v`; `none` is the index-out-of-range panic of Go. -/
def setIndex {α : Type} (l : List α) (i : Nat) (v : α) : Option (List α) :=
  if i < l.length then some (l.set i v) else none

/-- The registry before any block is registered: one slot for each of `states`, holding
the unregistered sentinel of that state, an empty hash index, no capability flag set and
no custom block. -/
def Registry.initial (catalog : List (stateHash × Nat)) (states : List blockState)
    (airRID : Nat) : Registry :=
  { stateRuntimeIDs := catalog
    blocks := states.map Block.unknownBlock
    hashes := []
    airRID := airRID
    customBlockStates := []
    FilteringBlocks := List.replicate states.length 0
    LightBlocks := List.replicate states.length 0
    nbtBlocks := List.replicate states.length false
    randomTickBlocks := List.replicate states.length false
    liquidBlocks := List.replicate states.length false
    liquidDisplacingBlocks := List.replicate states.length false
    customBlocks := [] }

/-- The panics of the registry functions, by the place that raises them. -/
inductive Panic where
  /-- Line 100: "block state returned is not registered". -/
  | stateNotRegistered (name : String) (properties : Properties)
  /-- Line 103: "block with name and properties ... already registered". -/
  | alreadyRegistered (name : String) (properties : Properties)
  /-- Line 107: "block ... with hash ... already registered by ...", raised when the
  hash index has the hash; `other` is the runtime ID found there. -/
  | hashRegistered (hash : Int) (other : Int)
  /-- Line 147: "cannot find block by non-0 hash of block". -/
  | hashNotFound (hash : Nat)
  /-- Line 159: "cannot find block by (name + properties)". -/
  | nameNotFound (name : String) (properties : Properties)
  /-- A slice index out of range, raised by the Go runtime. -/
  | indexOutOfRange (index : Nat)
  deriving DecidableEq, Repr

/-- The result of a call that writes the tables: it returns, or it panics; either way
the tables are left as given. -/
inductive Outcome where
  | ok (s : Registry)
  | panicked (p : Panic) (s : Registry)
  deriving DecidableEq, Repr

/-- The tables after the call, returned or not. -/
def Outcome.state : Outcome → Registry
  | .ok s => s
  | .panicked _ s => s

/-- Sequencing of statements: the next statement runs only if no panic was raised. -/
def Outcome.andThen (o : Outcome) (f : Registry → Outcome) : Outcome :=
  match o with
  | .ok s => f s
  | .panicked p s => .panicked p s

/-- Modelled from the spec: `registerBlockState` is declared outside the files at hand.
Section 4.2, step 2: it "register[s] its descriptor in a side-table used for client-facing
custom-block declarations (independent of the main catalog), marking it for later
geometry/texture lookup". -/
def registerBlockState (s : Registry) (st : blockState) (order : Bool) : Registry :=
  { s with customBlockStates := s.customBlockStates ++ [(st, order)] }

/-! ## Registration -/

/-- Lines 112-114: a light diffuser records its level in `chunk.FilteringBlocks[rid]`. -/
def registerDiffuser (rid : Nat) (b : Block) (s : Registry) : Outcome :=
  match b.lightDiffuser with
  | none => .ok s
  | some level =>
    match setIndex s.FilteringBlocks rid (level % 256) with
    | some l => .ok { s with FilteringBlocks := l }
    | none => .panicked (.indexOutOfRange rid) s

/-- Lines 115-117: a light emitter records its level in `chunk.LightBlocks[rid]`. -/
def registerEmitter (rid : Nat) (b : Block) (s : Registry) : Outcome :=
  match b.lightEmitter with
  | none => .ok s
  | some level =>
    match setIndex s.LightBlocks rid (level % 256) with
    | some l => .ok { s with LightBlocks := l }
    | none => .panicked (.indexOutOfRange rid) s

/-- Lines 118-120: `nbtBlocks[rid] = true` for an `NBTer`. -/
def registerNBTer (rid : Nat) (b : Block) (s : Registry) : Outcome :=
  if b.nbter then
    match setIndex s.nbtBlocks rid true with
    | some l => .ok { s with nbtBlocks := l }
    | none => .panicked (.indexOutOfRange rid) s
  else .ok s

/-- Lines 121-123: `randomTickBlocks[rid] = true` for a `RandomTicker`. -/
def registerRandomTicker (rid : Nat) (b : Block) (s : Registry) : Outcome :=
  if b.randomTicker then
    match setIndex s.randomTickBlocks rid true with
    | some l => .ok { s with randomTickBlocks := l }
    | none => .panicked (.indexOutOfRange rid) s
  else .ok s

/-- Lines 124-126: `liquidBlocks[rid] = true` for a `Liquid`. -/
def registerLiquid (rid : Nat) (b : Block) (s : Registry) : Outcome :=
  if b.liquid then
    match setIndex s.liquidBlocks rid true with
    | some l => .ok { s with liquidBlocks := l }
    | none => .panicked (.indexOutOfRange rid) s
  else .ok s

/-- Lines 127-129: `liquidDisplacingBlocks[rid] = true` for a `LiquidDisplacer`. -/
def registerLiquidDisplacer (rid : Nat) (b : Block) (s : Registry) : Outcome :=
  if b.liquidDisplacer then
    match setIndex s.liquidDisplacingBlocks rid true with
    | some l => .ok { s with liquidDisplacingBlocks := l }
    | none => .panicked (.indexOutOfRange rid) s
  else .ok s

/-- Lines 130-134: a custom block claims its name in `customBlocks` unless the name is
already claimed. -/
def registerCustom (name : String) (b : Block) (s : Registry) : Outcome :=
  if b.customBlock then
    match lookupCustom s.customBlocks name with
    | some _ => .ok s
    | none => .ok { s with customBlocks := s.customBlocks ++ [(name, b)] }
  else .ok s

/-- Lines 112-134 of `RegisterBlock`: the capability probes, in source order. -/
def registerCapabilities (rid : Nat) (name : String) (b : Block) (s : Registry) : Outcome :=
  (registerDiffuser rid b s).andThen fun s1 =>
  (registerEmitter rid b s1).andThen fun s2 =>
  (registerNBTer rid b s2).andThen fun s3 =>
  (registerRandomTicker rid b s3).andThen fun s4 =>
  (registerLiquid rid b s4).andThen fun s5 =>
  (registerLiquidDisplacer rid b s5).andThen fun s6 =>
  registerCustom name b s6

/-- The function `RegisterBlock(b)`, lines 91-135. -/
def RegisterBlock (s : Registry) (b : Block) : Outcome :=
  let name := b.EncodeBlock.1
  let properties := b.EncodeBlock.2
  let s1 := if b.customBlock then registerBlockState s ⟨name, properties⟩ true else s
  match lookupState s1.stateRuntimeIDs (stateKey name properties) with
  | none => .panicked (.stateNotRegistered name properties) s1
  | some rid =>
    match s1.blocks[rid]? with
    | none => .panicked (.indexOutOfRange rid) s1
    | some (.value _) => .panicked (.alreadyRegistered name properties) s1
    | some (.unknownBlock _) =>
      let hash := int64 b.Hash
      match s1.hashes.Get hash with
      | some other => .panicked (.hashRegistered hash other) s1
      | none =>
        registerCapabilities rid name b
          { s1 with blocks := s1.blocks.set rid b
                    hashes := s1.hashes.Put hash (rid : Int) }

/-! ## Resolution -/

/-- The function `slowBlockRuntimeID(b)`, lines 154-162. -/
def slowBlockRuntimeID (s : Registry) (b : Block) : Except Panic Nat :=
  let name := b.EncodeBlock.1
  let properties := b.EncodeBlock.2
  match lookupState s.stateRuntimeIDs (stateKey name properties) with
  | none => .error (.nameNotFound name properties)
  | some rid => .ok rid

/-- The function `BlockRuntimeID(b)`, lines 139-150; `none` is the `nil` block. -/
def BlockRuntimeID (s : Registry) (b : Option Block) : Except Panic Nat :=
  match b with
  | none => .ok s.airRID
  | some b =>
    if b.Hash ≠ MaxUint64 then
      match s.hashes.Get (int64 b.Hash) with
      | some rid => .ok (uint32 rid)
      | none => .error (.hashNotFound b.Hash)
    else slowBlockRuntimeID s b

/-- The function `BlockByRuntimeID(rid)`, lines 166-171, with the call `air()` of its
first branch unfolded: `air()` is `BlockByRuntimeID(airRID)` without the flag.  The calls
nest, so the function takes the number of nested calls it may make; `none` means that this
number did not suffice.  A runtime ID is a `uint32` and the slice has fewer than `2 ^ 32`
slots, so `uint32(len(blocks))` is the length. -/
def BlockByRuntimeID (fuel : Nat) (s : Registry) (rid : Nat) : Option (Block × Bool) :=
  match fuel with
  | 0 => none
  | fuel + 1 =>
    if h : rid ≥ s.blocks.length then
      match BlockByRuntimeID fuel s s.airRID with
      | none => none
      | some (b, _) => some (b, false)
    else some (s.blocks[rid], true)

/-- The function `air()`, lines 189-192. -/
def air (fuel : Nat) (s : Registry) : Option Block :=
  match BlockByRuntimeID fuel s s.airRID with
  | none => none
  | some (b, _) => some b

/-- The function `BlockByName(name, properties)`, lines 175-181; the block `none` is
`nil`. -/
def BlockByName (s : Registry) (name : String) (properties : Properties) :
    Except Panic (Option Block × Bool) :=
  match lookupState s.stateRuntimeIDs (stateKey name properties) with
  | none => .ok (none, false)
  | some rid =>
    match s.blocks[rid]? with
    | none => .error (.indexOutOfRange rid)
    | some b => .ok (some b, true)

/-- The function `CustomBlocks()`, lines 184-186. -/
def CustomBlocks (s : Registry) : List (String × Block) := s.customBlocks

/-- The registry states that calls of `RegisterBlock` lead to from a registry in which
nothing is registered; a call that panicked counts with the tables it left behind. -/
inductive Reachable : Registry → Prop where
  | initial (catalog : List (stateHash × Nat)) (states : List blockState) (airRID : Nat) :
      Reachable (Registry.initial catalog states airRID)
  | register (s : Registry) (b : Block) :
      Reachable s → Reachable (RegisterBlock s b).state

/-- The registry states that further calls of `RegisterBlock` lead to from `s`. -/
inductive Later (s : Registry) : Registry → Prop where
  | refl : Later s s
  | register (t : Registry) (b : Block) : Later s t → Later s (RegisterBlock t b).state

/-- The tables that resolution reads (catalog, slots, hash index, `airRID`) agree. -/
def SameCore (s t : Registry) : Prop :=
  t.stateRuntimeIDs = s.stateRuntimeIDs ∧ t.blocks = s.blocks ∧ t.hashes = s.hashes ∧
    t.airRID = s.airRID

/-- Block `b` is registered under runtime ID `rid`: the catalog files its descriptor
under `rid`, slot `rid` holds `b`, and the hash index maps its hash to `rid`. -/
def RegisteredAt (s : Registry) (b : Block) (rid : Nat) : Prop :=
  lookupState s.stateRuntimeIDs (stateKey b.name b.properties) = some rid ∧
    s.blocks[rid]? = some b ∧ s.hashes.Get (int64 b.Hash) = some (rid : Int)

/-- Block `b` has claimed runtime ID `rid`: the catalog files its descriptor under `rid`,
the hash index maps its hash to `rid`, and slot `rid` holds a block whose descriptor the
catalog files under `rid` too; that block is `b` itself unless `b` is a value of the
sentinel type. -/
def ClaimedAt (s : Registry) (b : Block) (rid : Nat) : Prop :=
  lookupState s.stateRuntimeIDs (stateKey b.name b.properties) = some rid ∧
    s.hashes.Get (int64 b.Hash) = some (rid : Int) ∧
    ∃ c, s.blocks[rid]? = some c ∧
      lookupState s.stateRuntimeIDs (stateKey c.name c.properties) = some rid ∧
      (b.isUnknownBlock = false → c = b)

/-- The State Catalog gives different descriptors different runtime IDs. -/
def CatalogInjective (s : Registry) : Prop :=
  ∀ (k1 k2 : stateHash) (rid : Nat), lookupState s.stateRuntimeIDs k1 = some rid →
    lookupState s.stateRuntimeIDs k2 = some rid → k1 = k2

/-- Every block of an implementing package held by a slot is registered under the index of
that slot. -/
def SlotsIndexed (s : Registry) : Prop :=
  ∀ (rid : Nat) (v : BlockValue),
    s.blocks[rid]? = some (.value v) → RegisteredAt s (.value v) rid

/-- Every entry of the hash index under a hash other than the sentinel is the hash of a
block of an implementing package held by the slot it names. -/
def IndexSound (s : Registry) : Prop :=
  ∀ k v, s.hashes.Get k = some v → k ≠ int64 MaxUint64 →
    ∃ (rid : Nat) (w : BlockValue),
      v = (rid : Int) ∧ s.blocks[rid]? = some (.value w) ∧ int64 (Block.value w).Hash = k

/-! ## Sample data -/

/-- A value of an implementing package that implements none of the optional
interfaces. -/
def plainValue (name : String) (properties : Properties) (hash : Nat) : BlockValue :=
  { name := name, properties := properties, hash := hash, customBlock := false,
    lightDiffuser := none, lightEmitter := none, nbter := false, randomTicker := false,
    liquid := false, liquidDisplacer := false, payload := 0 }

/-- A block of an implementing package that implements none of the optional
interfaces. -/
def plainBlock (name : String) (properties : Properties) (hash : Nat) : Block :=
  .value (plainValue name properties hash)

/-- The states of the sample catalog, in the order of their runtime IDs. -/
def sampleStates : List blockState := [⟨"minecraft:air", []⟩, ⟨"minecraft:slime", []⟩]

/-- A catalog of two states without properties: air under 0 and slime under 1. -/
def sampleCatalog : List (stateHash × Nat) :=
  [(stateKey "minecraft:air" [], 0), (stateKey "minecraft:slime" [], 1)]

/-- The registry of `sampleCatalog` before any registration, with air as `airRID`. -/
def sampleRegistry : Registry := Registry.initial sampleCatalog sampleStates 0

/-- A block that encodes as air (`air.go`, line 28) and reports hash 11. -/
def sampleAir : Block := plainBlock "minecraft:air" [] 11

/-- A block that encodes as slime (`slime_block.go`, line 38) and reports hash 12. -/
def sampleSlime : Block := plainBlock "minecraft:slime" [] 12

/-- The sample registry after air was registered. -/
def airRegistry : Registry := (RegisterBlock sampleRegistry sampleAir).state

/-- The sample registry after air and slime were registered. -/
def fullRegistry : Registry := (RegisterBlock airRegistry sampleSlime).state

/-- A second block that encodes as air, with another hash and other data. -/
def otherAir : Block := .value { plainValue "minecraft:air" [] 99 with payload := 1 }

/-- A custom block whose state the sample catalog does not list. -/
def sampleCustom : Block :=
  .value { plainValue "custom:lamp" [("lit", .bool true)] 5 with customBlock := true }

/-- A block that encodes as air and reports the sentinel hash `math.MaxUint64`. -/
def sentinelAir : Block := plainBlock "minecraft:air" [] MaxUint64

/-- A block that encodes as slime and reports the sentinel hash `math.MaxUint64`. -/
def sentinelSlime : Block := plainBlock "minecraft:slime" [] MaxUint64

/-- A block whose state the sample catalog does not list and whose hash nothing shares. -/
def strayBlock : Block := plainBlock "minecraft:jukebox" [] 77

/-- The sample registry after the air block with the sentinel hash was registered. -/
def sentinelRegistry : Registry := (RegisterBlock sampleRegistry sentinelAir).state

/-- The registry with no slot at all: the package variables before any state is loaded. -/
def emptyRegistry : Registry := Registry.initial [] [] 0

/-- The unregistered sentinel of the air state: the value that slot 0 of the sample
registry holds and that `BlockByRuntimeID(0)` returns there. -/
def unknownAir : Block := .unknownBlock ⟨"minecraft:air", []⟩

/-- The sample registry after the sentinel of the air state was passed to
`RegisterBlock`. -/
def reclaimedRegistry : Registry := (RegisterBlock sampleRegistry unknownAir).state

/-- The sample registry after the sentinel of the air state and then the air block were
passed to `RegisterBlock`. -/
def overwrittenRegistry : Registry := (RegisterBlock reclaimedRegistry sampleAir).state

/-- A block that encodes as air (`air.go`, line 28), has the method `RandomTick`
(`air.go`, line 31) and reports hash 13. -/
def tickingAir : Block := .value { plainValue "minecraft:air" [] 13 with randomTicker := true }

/-- The sample registry after the sentinel of the air state and then the ticking air block
were passed to `RegisterBlock`. -/
def tickingRegistry : Registry := (RegisterBlock reclaimedRegistry tickingAir).state

/-! ## Capability flags and the steps of a registration -/

/-- The capability entries of one runtime ID: the entries of `chunk.FilteringBlocks`,
`chunk.LightBlocks`, `nbtBlocks`, `randomTickBlocks`, `liquidBlocks` and
`liquidDisplacingBlocks` at that index (`none` beyond the end of a slice). -/
structure CapabilityFlags where
  diffusion : Option Nat
  emission : Option Nat
  nbt : Option Bool
  randomTick : Option Bool
  liquid : Option Bool
  liquidDisplacing : Option Bool
  deriving DecidableEq, Repr

/-- The capability entries of runtime ID `r`. -/
def flagsAt (s : Registry) (r : Nat) : CapabilityFlags :=
  { diffusion := s.FilteringBlocks[r]?
    emission := s.LightBlocks[r]?
    nbt := s.nbtBlocks[r]?
    randomTick := s.randomTickBlocks[r]?
    liquid := s.liquidBlocks[r]?
    liquidDisplacing := s.liquidDisplacingBlocks[r]? }

/-- The lengths of the six capability slices. -/
def flagLengths (s : Registry) : List Nat :=
  [s.FilteringBlocks.length, s.LightBlocks.length, s.nbtBlocks.length,
    s.randomTickBlocks.length, s.liquidBlocks.length, s.liquidDisplacingBlocks.length]

/-- The capability slices of `t` are those of `s` except possibly at index `rid`. -/
def FlagsOff (rid : Nat) (s t : Registry) : Prop :=
  (∀ (r : Nat), r ≠ rid → flagsAt t r = flagsAt s r) ∧ flagLengths t = flagLengths s

/-- The tables after lines 92-95 of `RegisterBlock`. -/
def afterStateRegistration (s : Registry) (b : Block) : Registry :=
  if b.customBlock then registerBlockState s ⟨b.name, b.properties⟩ true else s

/-- The tables after lines 109-110 of `RegisterBlock`, the slot claimed and the hash
indexed. -/
def claimSlot (s : Registry) (rid : Nat) (b : Block) : Registry :=
  { s with blocks := s.blocks.set rid b
           hashes := s.hashes.Put (int64 b.Hash) (rid : Int) }

/-- The tables after the six capability writes of lines 112-129, when none of them
panics. -/
def writeFlags (rid : Nat) (b : Block) (s : Registry) : Registry :=
  { s with
    FilteringBlocks :=
      match b.lightDiffuser with
      | some l => s.FilteringBlocks.set rid (l % 256)
      | none => s.FilteringBlocks
    LightBlocks :=
      match b.lightEmitter with
      | some l => s.LightBlocks.set rid (l % 256)
      | none => s.LightBlocks
    nbtBlocks := if b.nbter then s.nbtBlocks.set rid true else s.nbtBlocks
    randomTickBlocks :=
      if b.randomTicker then s.randomTickBlocks.set rid true else s.randomTickBlocks
    liquidBlocks := if b.liquid then s.liquidBlocks.set rid true else s.liquidBlocks
    liquidDisplacingBlocks :=
      if b.liquidDisplacer then s.liquidDisplacingBlocks.set rid true
      else s.liquidDisplacingBlocks }

/-- The map `customBlocks` after lines 130-134. -/
def claimName (name : String) (b : Block) (m : List (String × Block)) : List (String × Block) :=
  if b.customBlock then
    match lookupCustom m name with
    | some _ => m
    | none => m ++ [(name, b)]
  else m

/-- The slices a capability of `b` makes `RegisterBlock` write are long enough for index
`rid`. -/
def WritesInRange (rid : Nat) (b : Block) (s : Registry) : Prop :=
  (b.lightDiffuser ≠ none → rid < s.FilteringBlocks.length) ∧
  (b.lightEmitter ≠ none → rid < s.LightBlocks.length) ∧
  (b.nbter = true → rid < s.nbtBlocks.length) ∧
  (b.randomTicker = true → rid < s.randomTickBlocks.length) ∧
  (b.liquid = true → rid < s.liquidBlocks.length) ∧
  (b.liquidDisplacer = true → rid < s.liquidDisplacingBlocks.length)

/-- The capability slices are as long as `blocks`, and the four flags of a slot that
holds the unregistered sentinel are unset. -/
def FlagsClear (s : Registry) : Prop :=
  (∀ n, n ∈ flagLengths s → n = s.blocks.length) ∧
  ∀ (r : Nat) (state : blockState), s.blocks[r]? = some (Block.unknownBlock state) →
    s.nbtBlocks[r]? = some false ∧ s.randomTickBlocks[r]? = some false ∧
    s.liquidBlocks[r]? = some false ∧ s.liquidDisplacingBlocks[r]? = some false

/-- A catalog with air under 0 and still water under 1. -/
def waterCatalog : List (stateHash × Nat) :=
  [(stateKey "minecraft:air" [], 0), (stateKey "minecraft:water" [("liquid_depth", .int32 0)], 1)]

/-- The registry of `waterCatalog` before any registration. -/
def waterRegistry : Registry :=
  Registry.initial waterCatalog
    [⟨"minecraft:air", []⟩, ⟨"minecraft:water", [("liquid_depth", .int32 0)]⟩] 0

/-- A block that implements `Liquid` and no other optional interface. -/
def sampleWater : Block :=
  .value { plainValue "minecraft:water" [("liquid_depth", .int32 0)] 31 with liquid := true }

/-- The water registry after the water block was registered. -/
def wetRegistry : Registry := (RegisterBlock waterRegistry sampleWater).state

/-- A custom block whose state the sample catalog lists (as slime). -/
def customSlime : Block :=
  .value { plainValue "minecraft:slime" [] 41 with customBlock := true }

/-- The tables a refused registration of the uncatalogued custom block leaves behind. -/
def refusedRegistry : Registry := (RegisterBlock airRegistry sampleCustom).state

/-- The sample registry after the custom slime block was registered. -/
def customRegistry : Registry := (RegisterBlock sampleRegistry customSlime).state

end World

/-!
# The banner block of `server/block/banner.go`

`Banner.EncodeBlock`, `allBanners`, `invertColour`, `invertColourID` and the "Base" entry
of `Banner.EncodeNBT` / `Banner.DecodeNBT`.
-/

namespace block

/-! ## Machine integers -/

/-- The Go conversion `int32(v)`. -/
def int32 (v : Int) : Int := (v + 2 ^ 31) % 2 ^ 32 - 2 ^ 31

/-- The 16-bit pattern of an `int16` value (two's complement). -/
def bits16 (v : Int) : Nat := (v % 2 ^ 16).toNat

/-- The `int16` value of a 16-bit pattern. -/
def ofBits16 (p : Nat) : Int :=
  if p % 2 ^ 16 < 2 ^ 15 then ((p % 2 ^ 16 : Nat) : Int) else ((p % 2 ^ 16 : Nat) : Int) - 2 ^ 16

/-- The Go conversion `int16(v)`. -/
def int16 (v : Int) : Int := ofBits16 (bits16 v)

/-- The Go conversion `uint8(v)`. -/
def uint8 (v : Int) : Nat := (v % 2 ^ 8).toNat

/-- The operation `^x` on `int16`: every bit of the pattern is flipped. -/
def not16 (x : Int) : Int := ofBits16 (2 ^ 16 - 1 - bits16 x)

/-- The operation `x & y` on `int16`. -/
def and16 (x y : Int) : Int := ofBits16 (bits16 x &&& bits16 y)

/-! ## Colours and attachments -/

/-- A value of `item.Colour`, by the number its method `Uint8()` reports; the type is
declared outside the files at hand. -/
structure Colour where
  id : Nat
  deriving DecidableEq, Repr

/-- The method `c.Uint8()`. -/
def Colour.Uint8 (c : Colour) : Nat := c.id % 2 ^ 8

/-- The type `Attachment`, with the fields that `banner.go` reads (lines 67, 68, 89-92):
`hanging`, `facing` (a `cube.Direction`) and `o` (a `cube.Orientation`).  The declaration
is outside the files at hand. -/
structure Attachment where
  hanging : Bool
  facing : Int
  o : Int
  deriving DecidableEq, Repr

/-- Modelled from the spec: `WallAttachment` is declared outside the files at hand; the
spec has the "orientation variants" of a block only (section 8, Scenario B).  It is taken
to build the hanging attachment that faces `d`, the fields `EncodeBlock` reads on lines
89-90. -/
def WallAttachment (d : Int) : Attachment := { hanging := true, facing := d, o := 0 }

/-- Modelled from the spec: `StandingAttachment` is declared outside the files at hand;
the spec has the "orientation variants" of a block only (section 8, Scenario B).  It is
taken to build the standing attachment with orientation `o`, the field `EncodeBlock` reads
on line 92. -/
def StandingAttachment (o : Int) : Attachment := { hanging := false, facing := 0, o := o }

/-! ## The banner -/

/-- The struct `Banner` (lines 14-26); a pattern layer stands as a number, its type is
declared outside the files at hand. -/
structure Banner where
  Colour : Colour
  Attach : Attachment
  Patterns : List Nat
  Illager : Bool
  deriving DecidableEq, Repr

/-- The method `Banner.EncodeBlock`, lines 88-93. -/
def Banner.EncodeBlock (b : Banner) : String × World.Properties :=
  if b.Attach.hanging then
    ("minecraft:wall_banner", [("facing_direction", .int32 (int32 (b.Attach.facing + 2)))])
  else
    ("minecraft:standing_banner", [("ground_sign_direction", .int32 (int32 b.Attach.o))])

/-- The struct literal `Banner{Attach: a}`: every other field has its zero value. -/
def Banner.ofAttach (a : Attachment) : Banner :=
  { Colour := ⟨0⟩, Attach := a, Patterns := [], Illager := false }

/-- The function `allBanners`, lines 133-141; `directions` is the result of
`cube.Directions()`, which is declared outside the files at hand. -/
def allBanners (directions : List Int) : List Banner :=
  directions.map (fun d => Banner.ofAttach (WallAttachment d)) ++
    (List.range 16).map (fun (o : Nat) => Banner.ofAttach (StandingAttachment (o : Int)))

/-- The function `invertColour`, lines 123-125. -/
def invertColour (c : Colour) : Int := and16 (not16 (int16 (c.Uint8 : Int))) 0xf

/-- The function `invertColourID`, lines 128-130; `colours` is the result of
`item.Colours()`, which is declared outside the files at hand, and `none` is the
index-out-of-range panic of Go. -/
def invertColourID (colours : List Colour) (id : Int) : Option Colour :=
  colours[uint8 (and16 (not16 id) 0xf)]?

/-- The value `Banner.EncodeNBT` writes under "Base", line 105. -/
def Banner.encodeBase (b : Banner) : Int := int32 (invertColour b.Colour)

/-- The `Colour` that `Banner.DecodeNBT` sets from the `int32` value `base` found under
"Base", line 111. -/
def Banner.decodeColour (colours : List block.Colour) (base : Int) : Option block.Colour :=
  invertColourID colours (int16 base)

/-! ## Sample data -/

/-- Four directions, numbered 0 to 3. -/
def sampleDirections : List Int := [0, 1, 2, 3]

/-- Sixteen colours, each at the index of its number. -/
def sampleColours : List Colour := (List.range 16).map Colour.mk

/-- A block of package `world` with the descriptor of a banner and the given hash. -/
def bannerBlock (b : Banner) (hash : Nat) : World.Block :=
  .value { World.plainValue b.EncodeBlock.1 b.EncodeBlock.2 hash with nbter := true }

end block

namespace World

/-! ## Auxiliary facts -/

theorem IntIntMap.Get_Put_self (m : IntIntMap) (k v : Int) : (m.Put k v).Get k = some v := by
  induction m with
  | nil => simp [IntIntMap.Put, IntIntMap.Get]
  | cons e rest ih =>
    obtain ⟨k0, v0⟩ := e
    by_cases h : k0 = k
    · simp [IntIntMap.Put, IntIntMap.Get, h]
    · simp [IntIntMap.Put, IntIntMap.Get, h, ih]

theorem IntIntMap.Get_Put_other (m : IntIntMap) (k v key : Int) (h : key ≠ k) :
    (m.Put k v).Get key = m.Get key := by
  induction m with
  | nil =>
    have h2 : ¬ k = key := fun e => h e.symm
    simp [IntIntMap.Put, IntIntMap.Get, h2]
  | cons e rest ih =>
    obtain ⟨k0, v0⟩ := e
    by_cases h0 : k0 = k
    · subst h0
      have h2 : ¬ k0 = key := fun e => h e.symm
      simp [IntIntMap.Put, IntIntMap.Get, h2]
    · by_cases h1 : k0 = key
      · subst h1
        simp [IntIntMap.Put, IntIntMap.Get, h0]
      · simp [IntIntMap.Put, IntIntMap.Get, h0, h1, ih]

theorem int64_injective (a b : Nat) (h : int64 a = int64 b) : a % 2 ^ 64 = b % 2 ^ 64 := by
  unfold int64 at h
  have ha : a % 2 ^ 64 < 2 ^ 64 := Nat.mod_lt _ (by norm_num)
  have hb : b % 2 ^ 64 < 2 ^ 64 := Nat.mod_lt _ (by norm_num)
  split at h <;> split at h <;> omega

theorem Hash_eq_of_int64 (b c : Block) (h : int64 b.Hash = int64 c.Hash) : b.Hash = c.Hash := by
  have h2 := int64_injective _ _ h
  unfold Block.Hash at h2 ⊢
  simpa using h2

theorem uint32_natCast (n : Nat) (h : n < 2 ^ 32) : uint32 (n : Int) = n := by
  unfold uint32
  have : ((n : Int) % 2 ^ 32) = (n : Int) := Int.emod_eq_of_lt (by omega) (by exact_mod_cast h)
  rw [this]; simp

theorem lookupState_lt (c : List (stateHash × Nat)) (key : stateHash) (r : Nat)
    (h : lookupState c key = some r) : r < 2 ^ 32 := by
  induction c with
  | nil => simp [lookupState] at h
  | cons e rest ih =>
    obtain ⟨k0, v0⟩ := e
    by_cases h0 : k0 = key
    · simp [lookupState, h0] at h
      rw [← h]; exact Nat.mod_lt _ (by norm_num)
    · simp [lookupState, h0] at h
      exact ih h

theorem SameCore.rfl (s : Registry) : SameCore s s := ⟨Eq.refl _, Eq.refl _, Eq.refl _, Eq.refl _⟩

theorem SameCore.trans {s t u : Registry} (h1 : SameCore s t) (h2 : SameCore t u) :
    SameCore s u :=
  ⟨h2.1.trans h1.1, h2.2.1.trans h1.2.1, h2.2.2.1.trans h1.2.2.1, h2.2.2.2.trans h1.2.2.2⟩

theorem registerDiffuser_core (rid : Nat) (b : Block) (s : Registry) :
    SameCore s (registerDiffuser rid b s).state := by
  unfold registerDiffuser
  split
  · exact SameCore.rfl s
  · split <;> simp [Outcome.state, SameCore]

theorem registerEmitter_core (rid : Nat) (b : Block) (s : Registry) :
    SameCore s (registerEmitter rid b s).state := by
  unfold registerEmitter
  split
  · exact SameCore.rfl s
  · split <;> simp [Outcome.state, SameCore]

theorem registerNBTer_core (rid : Nat) (b : Block) (s : Registry) :
    SameCore s (registerNBTer rid b s).state := by
  unfold registerNBTer
  split
  · split <;> simp [Outcome.state, SameCore]
  · exact SameCore.rfl s

theorem registerRandomTicker_core (rid : Nat) (b : Block) (s : Registry) :
    SameCore s (registerRandomTicker rid b s).state := by
  unfold registerRandomTicker
  split
  · split <;> simp [Outcome.state, SameCore]
  · exact SameCore.rfl s

theorem registerLiquid_core (rid : Nat) (b : Block) (s : Registry) :
    SameCore s (registerLiquid rid b s).state := by
  unfold registerLiquid
  split
  · split <;> simp [Outcome.state, SameCore]
  · exact SameCore.rfl s

theorem registerLiquidDisplacer_core (rid : Nat) (b : Block) (s : Registry) :
    SameCore s (registerLiquidDisplacer rid b s).state := by
  unfold registerLiquidDisplacer
  split
  · split <;> simp [Outcome.state, SameCore]
  · exact SameCore.rfl s

theorem registerCustom_core (name : String) (b : Block) (s : Registry) :
    SameCore s (registerCustom name b s).state := by
  unfold registerCustom
  split
  · split <;> simp [Outcome.state, SameCore]
  · exact SameCore.rfl s

theorem andThen_core (s : Registry) (o : Outcome) (f : Registry → Outcome)
    (h1 : SameCore s o.state) (h2 : ∀ t, SameCore t (f t).state) :
    SameCore s (o.andThen f).state := by
  cases o with
  | ok t => exact SameCore.trans h1 (h2 t)
  | panicked p t => exact h1

theorem registerCapabilities_core (rid : Nat) (name : String) (b : Block) (s : Registry) :
    SameCore s (registerCapabilities rid name b s).state := by
  unfold registerCapabilities
  refine andThen_core s _ _ (registerDiffuser_core rid b s) fun s1 => ?_
  refine andThen_core s1 _ _ (registerEmitter_core rid b s1) fun s2 => ?_
  refine andThen_core s2 _ _ (registerNBTer_core rid b s2) fun s3 => ?_
  refine andThen_core s3 _ _ (registerRandomTicker_core rid b s3) fun s4 => ?_
  refine andThen_core s4 _ _ (registerLiquid_core rid b s4) fun s5 => ?_
  refine andThen_core s5 _ _ (registerLiquidDisplacer_core rid b s5) fun s6 => ?_
  exact registerCustom_core name b s6

theorem registerBlockState_core (s : Registry) (st : blockState) (order : Bool) :
    SameCore s (registerBlockState s st order) :=
  ⟨Eq.refl _, Eq.refl _, Eq.refl _, Eq.refl _⟩

/-- What a call of `RegisterBlock` does to the tables that resolution reads: either they
are left as they were and the call did not return, or the call claimed the unregistered
slot of the block's catalog entry and indexed the block's hash. -/
theorem RegisterBlock_state (s : Registry) (b : Block) :
    (SameCore s (RegisterBlock s b).state ∧ ∀ t, RegisterBlock s b ≠ .ok t) ∨
    ∃ rid state, lookupState s.stateRuntimeIDs (stateKey b.name b.properties) = some rid ∧
      s.blocks[rid]? = some (.unknownBlock state) ∧ s.hashes.Get (int64 b.Hash) = none ∧
      (RegisterBlock s b).state.stateRuntimeIDs = s.stateRuntimeIDs ∧
      (RegisterBlock s b).state.airRID = s.airRID ∧
      (RegisterBlock s b).state.blocks = s.blocks.set rid b ∧
      (RegisterBlock s b).state.hashes = s.hashes.Put (int64 b.Hash) rid := by
  have hs1 : SameCore s
      (if b.customBlock then registerBlockState s ⟨b.name, b.properties⟩ true else s) := by
    split
    · exact registerBlockState_core s _ _
    · exact SameCore.rfl s
  unfold RegisterBlock
  simp only [Block.EncodeBlock]
  generalize (if b.customBlock = true then registerBlockState s ⟨b.name, b.properties⟩ true
    else s) = s1 at hs1 ⊢
  obtain ⟨hc, hb, hh, ha⟩ := hs1
  cases hl : lookupState s1.stateRuntimeIDs (stateKey b.name b.properties) with
  | none =>
    left
    exact ⟨⟨hc, hb, hh, ha⟩, fun t h => by simp at h⟩
  | some rid =>
    simp only []
    cases hslot : s1.blocks[rid]? with
    | none =>
      left
      exact ⟨⟨hc, hb, hh, ha⟩, fun t h => by simp at h⟩
    | some slot =>
      cases slot with
      | value v0 =>
        left
        exact ⟨⟨hc, hb, hh, ha⟩, fun t h => by simp at h⟩
      | unknownBlock state =>
        simp only []
        cases hget : s1.hashes.Get (int64 b.Hash) with
        | some other =>
          left
          exact ⟨⟨hc, hb, hh, ha⟩, fun t h => by simp at h⟩
        | none =>
          right
          simp only []
          have hcore := registerCapabilities_core rid b.name b
            { s1 with blocks := s1.blocks.set rid b
                      hashes := s1.hashes.Put (int64 b.Hash) (rid : Int) }
          obtain ⟨h1, h2, h3, h4⟩ := hcore
          refine ⟨rid, state, ?_, ?_, ?_, ?_, ?_, ?_, ?_⟩
          · rw [← hc]; exact hl
          · rw [← hb]; exact hslot
          · rw [← hh]; exact hget
          · rw [h1]; exact hc
          · rw [h4]; exact ha
          · rw [h2, hb]
          · rw [h3, hh]

theorem RegisterBlock_ok (s t : Registry) (b : Block) (h : RegisterBlock s b = .ok t) :
    ∃ rid state, lookupState s.stateRuntimeIDs (stateKey b.name b.properties) = some rid ∧
      s.blocks[rid]? = some (.unknownBlock state) ∧ s.hashes.Get (int64 b.Hash) = none ∧
      t.stateRuntimeIDs = s.stateRuntimeIDs ∧ t.airRID = s.airRID ∧
      t.blocks = s.blocks.set rid b ∧
      t.hashes = s.hashes.Put (int64 b.Hash) rid := by
  rcases RegisterBlock_state s b with ⟨_, hno⟩ | hyes
  · exact absurd h (hno t)
  · rw [h] at hyes
    exact hyes

theorem getElem?_set_registered (l : List Block) (rid : Nat) (b x : Block)
    (h : l[rid]? = some x) : (l.set rid b)[rid]? = some b := by
  have hlt : rid < l.length := by
    rcases List.getElem?_eq_some.mp h with ⟨hl, _⟩
    exact hl
  simp [hlt]

theorem Hash_unknownBlock (state : blockState) :
    (Block.unknownBlock state).Hash = MaxUint64 := by
  show MaxUint64 % 2 ^ 64 = MaxUint64
  decide

theorem value_of_not_unknown (b : Block) (h : b.isUnknownBlock = false) :
    ∃ v, b = .value v := by
  cases b with
  | unknownBlock state => cases h
  | value v => exact ⟨v, Eq.refl _⟩

theorem RegisterBlock_ok_registeredAt (s t : Registry) (b : Block)
    (h : RegisterBlock s b = .ok t) : ∃ rid, RegisteredAt t b rid := by
  obtain ⟨rid, _, hl, hslot, _, hc, _, hb, hh⟩ := RegisterBlock_ok s t b h
  refine ⟨rid, ?_, ?_, ?_⟩
  · rw [hc]; exact hl
  · rw [hb]; exact getElem?_set_registered _ _ _ _ hslot
  · rw [hh]; exact IntIntMap.Get_Put_self _ _ _

theorem RegisteredAt_step (s : Registry) (b c : Block) (rid : Nat)
    (hv : b.isUnknownBlock = false) (h : RegisteredAt s b rid) :
    RegisteredAt (RegisterBlock s c).state b rid := by
  obtain ⟨h1, h2, h3⟩ := h
  rcases RegisterBlock_state s c with
    ⟨⟨hc, hb, hh, _⟩, _⟩ | ⟨r, state, _, hslot, hget, hc, _, hb, hh⟩
  · exact ⟨by rw [hc]; exact h1, by rw [hb]; exact h2, by rw [hh]; exact h3⟩
  · have hne : r ≠ rid := by
      intro e
      rw [e, h2] at hslot
      injection hslot with hslot
      rw [hslot] at hv
      cases hv
    have hkey : int64 b.Hash ≠ int64 c.Hash := by
      intro e
      rw [e, hget] at h3
      cases h3
    refine ⟨by rw [hc]; exact h1, ?_, ?_⟩
    · rw [hb, List.getElem?_set_ne hne]; exact h2
    · rw [hh, IntIntMap.Get_Put_other _ _ _ _ hkey]; exact h3

theorem RegisteredAt_later (s t : Registry) (b : Block) (rid : Nat) (hl : Later s t)
    (hv : b.isUnknownBlock = false) (h : RegisteredAt s b rid) : RegisteredAt t b rid := by
  induction hl with
  | refl => exact h
  | register u c _ ih => exact RegisteredAt_step u b c rid hv ih

theorem ClaimedAt_of_registeredAt (s : Registry) (b : Block) (rid : Nat)
    (h : RegisteredAt s b rid) : ClaimedAt s b rid :=
  ⟨h.1, h.2.2, b, h.2.1, h.1, fun _ => Eq.refl _⟩

theorem ClaimedAt_step (s : Registry) (b c : Block) (rid : Nat) (h : ClaimedAt s b rid) :
    ClaimedAt (RegisterBlock s c).state b rid := by
  obtain ⟨h1, h3, x, hx, hxl, hxb⟩ := h
  rcases RegisterBlock_state s c with
    ⟨⟨hc, hb, hh, _⟩, _⟩ | ⟨r, state, hl, hslot, hget, hc, _, hb, hh⟩
  · exact ⟨by rw [hc]; exact h1, by rw [hh]; exact h3, x, by rw [hb]; exact hx,
      by rw [hc]; exact hxl, hxb⟩
  · have hkey : int64 b.Hash ≠ int64 c.Hash := by
      intro e
      rw [e, hget] at h3
      cases h3
    refine ⟨by rw [hc]; exact h1, ?_, ?_⟩
    · rw [hh, IntIntMap.Get_Put_other _ _ _ _ hkey]; exact h3
    · by_cases e : r = rid
      · subst e
        refine ⟨c, ?_, by rw [hc]; exact hl, ?_⟩
        · rw [hb]; exact getElem?_set_registered _ _ _ _ hslot
        · intro hv
          rw [hx] at hslot
          injection hslot with hslot
          rw [hxb hv] at hslot
          rw [hslot] at hv
          cases hv
      · exact ⟨x, by rw [hb, List.getElem?_set_ne e]; exact hx, by rw [hc]; exact hxl, hxb⟩

theorem ClaimedAt_later (s t : Registry) (b : Block) (rid : Nat) (hl : Later s t)
    (h : ClaimedAt s b rid) : ClaimedAt t b rid := by
  induction hl with
  | refl => exact h
  | register u c _ ih => exact ClaimedAt_step u b c rid ih

theorem RegisterBlock_ok_claimedAt (s t : Registry) (b : Block)
    (h : RegisterBlock s b = .ok t) : ∃ rid, ClaimedAt t b rid := by
  obtain ⟨rid, hr⟩ := RegisterBlock_ok_registeredAt s t b h
  exact ⟨rid, ClaimedAt_of_registeredAt t b rid hr⟩

theorem RegisteredAt_BlockRuntimeID (s : Registry) (b : Block) (rid : Nat)
    (h : RegisteredAt s b rid) : BlockRuntimeID s (some b) = .ok rid := by
  obtain ⟨h1, _, h3⟩ := h
  unfold BlockRuntimeID
  simp only []
  split
  · rw [h3]
    simp only []
    rw [uint32_natCast rid (lookupState_lt _ _ _ h1)]
  · unfold slowBlockRuntimeID
    simp only [Block.EncodeBlock]
    rw [h1]

theorem BlockByRuntimeID_of_slot (s : Registry) (rid fuel : Nat) (x : Block)
    (h : s.blocks[rid]? = some x) : BlockByRuntimeID (fuel + 1) s rid = some (x, true) := by
  rcases List.getElem?_eq_some.mp h with ⟨hlt, hx⟩
  unfold BlockByRuntimeID
  have hn : ¬ rid ≥ s.blocks.length := by omega
  simp only [hn, dite_false]
  rw [← hx]

theorem SlotsIndexed_step (s : Registry) (c : Block) (h : SlotsIndexed s) :
    SlotsIndexed (RegisterBlock s c).state := by
  intro rid v hslot2
  rcases RegisterBlock_state s c with
    ⟨⟨_, hb, _, _⟩, _⟩ | ⟨r, state, hl, hslot, hget, hc, _, hb, hh⟩
  · rw [hb] at hslot2
    exact RegisteredAt_step s (.value v) c rid (Eq.refl _) (h rid v hslot2)
  · by_cases e : r = rid
    · subst e
      rw [hb, getElem?_set_registered _ _ _ _ hslot] at hslot2
      have hbc : c = .value v := by
        injection hslot2
      subst hbc
      refine ⟨by rw [hc]; exact hl, ?_, ?_⟩
      · rw [hb]; exact getElem?_set_registered _ _ _ _ hslot
      · rw [hh]; exact IntIntMap.Get_Put_self _ _ _
    · rw [hb, List.getElem?_set_ne e] at hslot2
      exact RegisteredAt_step s (.value v) c rid (Eq.refl _) (h rid v hslot2)

theorem IndexSound_step (s : Registry) (c : Block) (h : IndexSound s) :
    IndexSound (RegisterBlock s c).state := by
  intro k v hk hne
  rcases RegisterBlock_state s c with
    ⟨⟨_, hb, hh, _⟩, _⟩ | ⟨r, state, _, hslot, _, _, _, hb, hh⟩
  · rw [hh] at hk
    obtain ⟨rid, w, hv, hs, hkey⟩ := h k v hk hne
    exact ⟨rid, w, hv, by rw [hb]; exact hs, hkey⟩
  · by_cases e : k = int64 c.Hash
    · subst e
      rw [hh, IntIntMap.Get_Put_self] at hk
      cases c with
      | unknownBlock st =>
        rw [Hash_unknownBlock] at hne
        exact absurd (Eq.refl _) hne
      | value w =>
        refine ⟨r, w, ?_, ?_, Eq.refl _⟩
        · injection hk with h1
          exact h1.symm
        · rw [hb]; exact getElem?_set_registered _ _ _ _ hslot
    · rw [hh, IntIntMap.Get_Put_other _ _ _ _ e] at hk
      obtain ⟨rid, w, hv, hs, hkey⟩ := h k v hk hne
      have hne2 : r ≠ rid := by
        intro e2
        rw [e2, hs] at hslot
        cases hslot
      exact ⟨rid, w, hv, by rw [hb, List.getElem?_set_ne hne2]; exact hs, hkey⟩

theorem Reachable_invariant (s : Registry) (h : Reachable s) : SlotsIndexed s ∧ IndexSound s := by
  induction h with
  | initial catalog states airRID =>
    constructor
    · intro rid v hslot
      simp only [Registry.initial, List.getElem?_map] at hslot
      cases hst : states[rid]? with
      | none => rw [hst] at hslot; cases hslot
      | some st => rw [hst] at hslot; cases hslot
    · intro k v hk
      simp [Registry.initial, IntIntMap.Get] at hk
  | register s b _ ih => exact ⟨SlotsIndexed_step s b ih.1, IndexSound_step s b ih.2⟩

theorem RegisterBlock_of_registered (s : Registry) (b : Block) (b0 : BlockValue) (rid : Nat)
    (hl : lookupState s.stateRuntimeIDs (stateKey b.name b.properties) = some rid)
    (hs : s.blocks[rid]? = some (.value b0)) :
    RegisterBlock s b = .panicked (.alreadyRegistered b.name b.properties)
      (if b.customBlock then registerBlockState s ⟨b.name, b.properties⟩ true else s) := by
  have hs1 : SameCore s
      (if b.customBlock then registerBlockState s ⟨b.name, b.properties⟩ true else s) := by
    split
    · exact registerBlockState_core s _ _
    · exact SameCore.rfl s
  unfold RegisterBlock
  simp only [Block.EncodeBlock]
  generalize (if b.customBlock = true then registerBlockState s ⟨b.name, b.properties⟩ true
    else s) = s1 at hs1 ⊢
  obtain ⟨hc, hb, _, _⟩ := hs1
  rw [← hc] at hl
  rw [← hb] at hs
  simp only [hl, hs]

theorem andThen_panicked (o : Outcome) (f : Registry → Outcome) (p : Panic) (st : Registry)
    (h : o.andThen f = .panicked p st) :
    o = .panicked p st ∨ ∃ t, o = .ok t ∧ f t = .panicked p st := by
  cases o with
  | ok t => exact Or.inr ⟨t, Eq.refl _, h⟩
  | panicked q u => exact Or.inl h

theorem registerDiffuser_panicked (rid : Nat) (b : Block) (s : Registry) (p : Panic)
    (st : Registry) (h : registerDiffuser rid b s = .panicked p st) : p = .indexOutOfRange rid := by
  unfold registerDiffuser at h
  split at h
  · cases h
  · split at h
    · cases h
    · injection h with h1 _
      exact h1.symm

theorem registerEmitter_panicked (rid : Nat) (b : Block) (s : Registry) (p : Panic)
    (st : Registry) (h : registerEmitter rid b s = .panicked p st) : p = .indexOutOfRange rid := by
  unfold registerEmitter at h
  split at h
  · cases h
  · split at h
    · cases h
    · injection h with h1 _
      exact h1.symm

theorem registerNBTer_panicked (rid : Nat) (b : Block) (s : Registry) (p : Panic)
    (st : Registry) (h : registerNBTer rid b s = .panicked p st) : p = .indexOutOfRange rid := by
  unfold registerNBTer at h
  split at h
  · split at h
    · cases h
    · injection h with h1 _
      exact h1.symm
  · cases h

theorem registerRandomTicker_panicked (rid : Nat) (b : Block) (s : Registry) (p : Panic)
    (st : Registry) (h : registerRandomTicker rid b s = .panicked p st) :
    p = .indexOutOfRange rid := by
  unfold registerRandomTicker at h
  split at h
  · split at h
    · cases h
    · injection h with h1 _
      exact h1.symm
  · cases h

theorem registerLiquid_panicked (rid : Nat) (b : Block) (s : Registry) (p : Panic)
    (st : Registry) (h : registerLiquid rid b s = .panicked p st) : p = .indexOutOfRange rid := by
  unfold registerLiquid at h
  split at h
  · split at h
    · cases h
    · injection h with h1 _
      exact h1.symm
  · cases h

theorem registerLiquidDisplacer_panicked (rid : Nat) (b : Block) (s : Registry) (p : Panic)
    (st : Registry) (h : registerLiquidDisplacer rid b s = .panicked p st) :
    p = .indexOutOfRange rid := by
  unfold registerLiquidDisplacer at h
  split at h
  · split at h
    · cases h
    · injection h with h1 _
      exact h1.symm
  · cases h

theorem registerCustom_panicked (name : String) (b : Block) (s : Registry) (p : Panic)
    (st : Registry) (h : registerCustom name b s = .panicked p st) : False := by
  unfold registerCustom at h
  split at h
  · split at h <;> cases h
  · cases h

theorem registerCapabilities_panicked (rid : Nat) (name : String) (b : Block) (s : Registry)
    (p : Panic) (st : Registry) (h : registerCapabilities rid name b s = .panicked p st) :
    p = .indexOutOfRange rid := by
  unfold registerCapabilities at h
  rcases andThen_panicked _ _ p st h with h1 | ⟨s1, _, h⟩
  · exact registerDiffuser_panicked rid b s p st h1
  rcases andThen_panicked _ _ p st h with h1 | ⟨s2, _, h⟩
  · exact registerEmitter_panicked rid b s1 p st h1
  rcases andThen_panicked _ _ p st h with h1 | ⟨s3, _, h⟩
  · exact registerNBTer_panicked rid b s2 p st h1
  rcases andThen_panicked _ _ p st h with h1 | ⟨s4, _, h⟩
  · exact registerRandomTicker_panicked rid b s3 p st h1
  rcases andThen_panicked _ _ p st h with h1 | ⟨s5, _, h⟩
  · exact registerLiquid_panicked rid b s4 p st h1
  rcases andThen_panicked _ _ p st h with h1 | ⟨s6, _, h⟩
  · exact registerLiquidDisplacer_panicked rid b s5 p st h1
  exact (registerCustom_panicked name b s6 p st h).elim

/-- The panic of line 107 is raised exactly when the block passes the catalog check and
the slot check and the hash index already has its hash as a key. -/
theorem RegisterBlock_hashRegistered_iff (s : Registry) (b : Block) :
    (∃ h other st, RegisterBlock s b = .panicked (.hashRegistered h other) st) ↔
    ∃ rid state other,
      lookupState s.stateRuntimeIDs (stateKey b.name b.properties) = some rid ∧
      s.blocks[rid]? = some (.unknownBlock state) ∧
      s.hashes.Get (int64 b.Hash) = some other := by
  have hs1 : SameCore s
      (if b.customBlock then registerBlockState s ⟨b.name, b.properties⟩ true else s) := by
    split
    · exact registerBlockState_core s _ _
    · exact SameCore.rfl s
  unfold RegisterBlock
  simp only [Block.EncodeBlock]
  generalize (if b.customBlock = true then registerBlockState s ⟨b.name, b.properties⟩ true
    else s) = s1 at hs1 ⊢
  obtain ⟨hc, hb, hh, _⟩ := hs1
  rw [← hc, ← hb, ← hh]
  cases hl : lookupState s1.stateRuntimeIDs (stateKey b.name b.properties) with
  | none => simp
  | some rid =>
    simp only []
    cases hslot : s1.blocks[rid]? with
    | none => simp [hslot]
    | some slot =>
      cases slot with
      | value v0 => simp [hslot]
      | unknownBlock state =>
        simp only []
        cases hget : s1.hashes.Get (int64 b.Hash) with
        | some other =>
          constructor
          · intro _
            exact ⟨rid, state, other, Eq.refl _, hslot, Eq.refl _⟩
          · intro _
            exact ⟨_, other, s1, Eq.refl _⟩
        | none =>
          constructor
          · rintro ⟨h, other, st, hp⟩
            have := registerCapabilities_panicked _ _ _ _ _ _ hp
            cases this
          · rintro ⟨rid2, state2, other, hr, _, hg⟩
            injection hr with hr
            subst hr
            cases hg

theorem BlockByRuntimeID_no_result (s : Registry) (hair : s.blocks.length ≤ s.airRID) :
    ∀ (fuel rid : Nat), s.blocks.length ≤ rid → BlockByRuntimeID fuel s rid = none := by
  intro fuel
  induction fuel with
  | zero =>
    intro rid _
    unfold BlockByRuntimeID
    rfl
  | succ n ih =>
    intro rid h
    unfold BlockByRuntimeID
    simp only [ge_iff_le, h, dite_true]
    rw [ih _ hair]

theorem BlockByRuntimeID_found_iff (fuel : Nat) (s : Registry) (rid : Nat) (x : Block)
    (found : Bool) (h : BlockByRuntimeID fuel s rid = some (x, found)) :
    (found = true ↔ rid < s.blocks.length) ∧
    (found = true → s.blocks[rid]? = some x) := by
  cases fuel with
  | zero =>
    unfold BlockByRuntimeID at h
    cases h
  | succ n =>
    unfold BlockByRuntimeID at h
    by_cases hr : rid ≥ s.blocks.length
    · simp only [hr, dite_true] at h
      split at h
      · cases h
      · injection h with h1
        injection h1 with _ h2
        subst h2
        constructor
        · constructor
          · intro h3; cases h3
          · intro h3; omega
        · intro h3; cases h3
    · simp only [hr, dite_false] at h
      injection h with h1
      injection h1 with h2 h3
      subst h2 h3
      have hlt : rid < s.blocks.length := by omega
      exact ⟨⟨fun _ => hlt, fun _ => Eq.refl _⟩, fun _ => List.getElem?_eq_getElem hlt⟩

theorem BlockByName_of_slot (s : Registry) (name : String) (properties : Properties)
    (rid : Nat) (x : Block)
    (hl : lookupState s.stateRuntimeIDs (stateKey name properties) = some rid)
    (hs : s.blocks[rid]? = some x) : BlockByName s name properties = .ok (some x, true) := by
  unfold BlockByName
  simp only [hl, hs]

/-! ## Auxiliary facts on the capability writes -/

theorem RegisterBlock_unfold (s : Registry) (b : Block) :
    RegisterBlock s b =
      match lookupState s.stateRuntimeIDs (stateKey b.name b.properties) with
      | none => .panicked (.stateNotRegistered b.name b.properties) (afterStateRegistration s b)
      | some rid =>
        match s.blocks[rid]? with
        | none => .panicked (.indexOutOfRange rid) (afterStateRegistration s b)
        | some (.value _) =>
          .panicked (.alreadyRegistered b.name b.properties) (afterStateRegistration s b)
        | some (.unknownBlock _) =>
          match s.hashes.Get (int64 b.Hash) with
          | some other =>
            .panicked (.hashRegistered (int64 b.Hash) other) (afterStateRegistration s b)
          | none =>
            registerCapabilities rid b.name b (claimSlot (afterStateRegistration s b) rid b) := by
  have hs1 : SameCore s (afterStateRegistration s b) := by
    unfold afterStateRegistration
    split
    · exact registerBlockState_core s _ _
    · exact SameCore.rfl s
  obtain ⟨hc, hb, hh, _⟩ := hs1
  unfold RegisterBlock
  simp only [Block.EncodeBlock]
  change (match lookupState (afterStateRegistration s b).stateRuntimeIDs
      (stateKey b.name b.properties) with
    | none => Outcome.panicked (.stateNotRegistered b.name b.properties)
        (afterStateRegistration s b)
    | some rid =>
      match (afterStateRegistration s b).blocks[rid]? with
      | none => .panicked (.indexOutOfRange rid) (afterStateRegistration s b)
      | some (.value _) =>
        .panicked (.alreadyRegistered b.name b.properties) (afterStateRegistration s b)
      | some (.unknownBlock _) =>
        match (afterStateRegistration s b).hashes.Get (int64 b.Hash) with
        | some other =>
          .panicked (.hashRegistered (int64 b.Hash) other) (afterStateRegistration s b)
        | none =>
          registerCapabilities rid b.name b
            (claimSlot (afterStateRegistration s b) rid b)) = _
  rw [hc, hb, hh]

theorem setIndex_some {α : Type} (l l2 : List α) (i : Nat) (v : α)
    (h : setIndex l i v = some l2) : i < l.length ∧ l2 = l.set i v := by
  unfold setIndex at h
  split at h
  · injection h with h1
    exact ⟨by assumption, h1.symm⟩
  · cases h

theorem andThen_ok (o : Outcome) (f : Registry → Outcome) (t : Registry)
    (h : o.andThen f = .ok t) : ∃ u, o = .ok u ∧ f u = .ok t := by
  cases o with
  | ok u => exact ⟨u, Eq.refl _, h⟩
  | panicked p u => cases h

theorem FlagsOff_same (rid : Nat) (s : Registry) : FlagsOff rid s s :=
  ⟨fun _ _ => Eq.refl _, Eq.refl _⟩

theorem FlagsOff_chain {rid : Nat} {s t u : Registry} (h1 : FlagsOff rid s t)
    (h2 : FlagsOff rid t u) : FlagsOff rid s u :=
  ⟨fun r hr => (h2.1 r hr).trans (h1.1 r hr), h2.2.trans h1.2⟩

theorem registerDiffuser_off (rid : Nat) (b : Block) (s : Registry) :
    FlagsOff rid s (registerDiffuser rid b s).state := by
  unfold registerDiffuser
  split
  · exact FlagsOff_same rid s
  · split
    · rename_i l hl
      obtain ⟨_, hl2⟩ := setIndex_some _ _ _ _ hl
      subst hl2
      refine ⟨fun r hr => ?_, ?_⟩
      · simp [Outcome.state, flagsAt, List.getElem?_set_ne (Ne.symm hr)]
      · simp [Outcome.state, flagLengths]
    · exact FlagsOff_same rid s

theorem registerEmitter_off (rid : Nat) (b : Block) (s : Registry) :
    FlagsOff rid s (registerEmitter rid b s).state := by
  unfold registerEmitter
  split
  · exact FlagsOff_same rid s
  · split
    · rename_i l hl
      obtain ⟨_, hl2⟩ := setIndex_some _ _ _ _ hl
      subst hl2
      refine ⟨fun r hr => ?_, ?_⟩
      · simp [Outcome.state, flagsAt, List.getElem?_set_ne (Ne.symm hr)]
      · simp [Outcome.state, flagLengths]
    · exact FlagsOff_same rid s

theorem registerNBTer_off (rid : Nat) (b : Block) (s : Registry) :
    FlagsOff rid s (registerNBTer rid b s).state := by
  unfold registerNBTer
  split
  · split
    · rename_i l hl
      obtain ⟨_, hl2⟩ := setIndex_some _ _ _ _ hl
      subst hl2
      refine ⟨fun r hr => ?_, ?_⟩
      · simp [Outcome.state, flagsAt, List.getElem?_set_ne (Ne.symm hr)]
      · simp [Outcome.state, flagLengths]
    · exact FlagsOff_same rid s
  · exact FlagsOff_same rid s

theorem registerRandomTicker_off (rid : Nat) (b : Block) (s : Registry) :
    FlagsOff rid s (registerRandomTicker rid b s).state := by
  unfold registerRandomTicker
  split
  · split
    · rename_i l hl
      obtain ⟨_, hl2⟩ := setIndex_some _ _ _ _ hl
      subst hl2
      refine ⟨fun r hr => ?_, ?_⟩
      · simp [Outcome.state, flagsAt, List.getElem?_set_ne (Ne.symm hr)]
      · simp [Outcome.state, flagLengths]
    · exact FlagsOff_same rid s
  · exact FlagsOff_same rid s

theorem registerLiquid_off (rid : Nat) (b : Block) (s : Registry) :
    FlagsOff rid s (registerLiquid rid b s).state := by
  unfold registerLiquid
  split
  · split
    · rename_i l hl
      obtain ⟨_, hl2⟩ := setIndex_some _ _ _ _ hl
      subst hl2
      refine ⟨fun r hr => ?_, ?_⟩
      · simp [Outcome.state, flagsAt, List.getElem?_set_ne (Ne.symm hr)]
      · simp [Outcome.state, flagLengths]
    · exact FlagsOff_same rid s
  · exact FlagsOff_same rid s

theorem registerLiquidDisplacer_off (rid : Nat) (b : Block) (s : Registry) :
    FlagsOff rid s (registerLiquidDisplacer rid b s).state := by
  unfold registerLiquidDisplacer
  split
  · split
    · rename_i l hl
      obtain ⟨_, hl2⟩ := setIndex_some _ _ _ _ hl
      subst hl2
      refine ⟨fun r hr => ?_, ?_⟩
      · simp [Outcome.state, flagsAt, List.getElem?_set_ne (Ne.symm hr)]
      · simp [Outcome.state, flagLengths]
    · exact FlagsOff_same rid s
  · exact FlagsOff_same rid s

theorem registerCustom_off (rid : Nat) (name : String) (b : Block) (s : Registry) :
    FlagsOff rid s (registerCustom name b s).state := by
  unfold registerCustom
  split
  · split
    · exact FlagsOff_same rid s
    · exact ⟨fun _ _ => Eq.refl _, Eq.refl _⟩
  · exact FlagsOff_same rid s

theorem andThen_off (rid : Nat) (s : Registry) (o : Outcome) (f : Registry → Outcome)
    (h1 : FlagsOff rid s o.state) (h2 : ∀ t, FlagsOff rid t (f t).state) :
    FlagsOff rid s (o.andThen f).state := by
  cases o with
  | ok t => exact FlagsOff_chain h1 (h2 t)
  | panicked p t => exact h1

theorem registerCapabilities_off (rid : Nat) (name : String) (b : Block) (s : Registry) :
    FlagsOff rid s (registerCapabilities rid name b s).state := by
  unfold registerCapabilities
  refine andThen_off rid s _ _ (registerDiffuser_off rid b s) fun s1 => ?_
  refine andThen_off rid s1 _ _ (registerEmitter_off rid b s1) fun s2 => ?_
  refine andThen_off rid s2 _ _ (registerNBTer_off rid b s2) fun s3 => ?_
  refine andThen_off rid s3 _ _ (registerRandomTicker_off rid b s3) fun s4 => ?_
  refine andThen_off rid s4 _ _ (registerLiquid_off rid b s4) fun s5 => ?_
  refine andThen_off rid s5 _ _ (registerLiquidDisplacer_off rid b s5) fun s6 => ?_
  exact registerCustom_off rid name b s6

theorem registerDiffuser_ok (rid : Nat) (b : Block) (s t : Registry)
    (h : registerDiffuser rid b s = .ok t) :
    t = { s with FilteringBlocks :=
            match b.lightDiffuser with
            | some l => s.FilteringBlocks.set rid (l % 256)
            | none => s.FilteringBlocks } ∧
      (b.lightDiffuser ≠ none → rid < s.FilteringBlocks.length) := by
  unfold registerDiffuser at h
  split at h
  · rename_i hn
    injection h with h1
    subst h1
    simp [hn]
  · rename_i l hsome
    split at h
    · rename_i l2 hl
      obtain ⟨hlt, hl2⟩ := setIndex_some _ _ _ _ hl
      injection h with h1
      subst h1 hl2
      simp [hsome, hlt]
    · cases h

theorem registerEmitter_ok (rid : Nat) (b : Block) (s t : Registry)
    (h : registerEmitter rid b s = .ok t) :
    t = { s with LightBlocks :=
            match b.lightEmitter with
            | some l => s.LightBlocks.set rid (l % 256)
            | none => s.LightBlocks } ∧
      (b.lightEmitter ≠ none → rid < s.LightBlocks.length) := by
  unfold registerEmitter at h
  split at h
  · rename_i hn
    injection h with h1
    subst h1
    simp [hn]
  · rename_i l hsome
    split at h
    · rename_i l2 hl
      obtain ⟨hlt, hl2⟩ := setIndex_some _ _ _ _ hl
      injection h with h1
      subst h1 hl2
      simp [hsome, hlt]
    · cases h

theorem registerNBTer_ok (rid : Nat) (b : Block) (s t : Registry)
    (h : registerNBTer rid b s = .ok t) :
    t = { s with nbtBlocks := if b.nbter then s.nbtBlocks.set rid true else s.nbtBlocks } ∧
      (b.nbter = true → rid < s.nbtBlocks.length) := by
  unfold registerNBTer at h
  split at h
  · rename_i hb
    split at h
    · rename_i l2 hl
      obtain ⟨hlt, hl2⟩ := setIndex_some _ _ _ _ hl
      injection h with h1
      subst h1 hl2
      simp [hb, hlt]
    · cases h
  · rename_i hb
    injection h with h1
    subst h1
    simp [hb]

theorem registerRandomTicker_ok (rid : Nat) (b : Block) (s t : Registry)
    (h : registerRandomTicker rid b s = .ok t) :
    t = { s with randomTickBlocks :=
            if b.randomTicker then s.randomTickBlocks.set rid true else s.randomTickBlocks } ∧
      (b.randomTicker = true → rid < s.randomTickBlocks.length) := by
  unfold registerRandomTicker at h
  split at h
  · rename_i hb
    split at h
    · rename_i l2 hl
      obtain ⟨hlt, hl2⟩ := setIndex_some _ _ _ _ hl
      injection h with h1
      subst h1 hl2
      simp [hb, hlt]
    · cases h
  · rename_i hb
    injection h with h1
    subst h1
    simp [hb]

theorem registerLiquid_ok (rid : Nat) (b : Block) (s t : Registry)
    (h : registerLiquid rid b s = .ok t) :
    t = { s with liquidBlocks :=
            if b.liquid then s.liquidBlocks.set rid true else s.liquidBlocks } ∧
      (b.liquid = true → rid < s.liquidBlocks.length) := by
  unfold registerLiquid at h
  split at h
  · rename_i hb
    split at h
    · rename_i l2 hl
      obtain ⟨hlt, hl2⟩ := setIndex_some _ _ _ _ hl
      injection h with h1
      subst h1 hl2
      simp [hb, hlt]
    · cases h
  · rename_i hb
    injection h with h1
    subst h1
    simp [hb]

theorem registerLiquidDisplacer_ok (rid : Nat) (b : Block) (s t : Registry)
    (h : registerLiquidDisplacer rid b s = .ok t) :
    t = { s with liquidDisplacingBlocks :=
            if b.liquidDisplacer then s.liquidDisplacingBlocks.set rid true
            else s.liquidDisplacingBlocks } ∧
      (b.liquidDisplacer = true → rid < s.liquidDisplacingBlocks.length) := by
  unfold registerLiquidDisplacer at h
  split at h
  · rename_i hb
    split at h
    · rename_i l2 hl
      obtain ⟨hlt, hl2⟩ := setIndex_some _ _ _ _ hl
      injection h with h1
      subst h1 hl2
      simp [hb, hlt]
    · cases h
  · rename_i hb
    injection h with h1
    subst h1
    simp [hb]

theorem registerCustom_ok (name : String) (b : Block) (s t : Registry)
    (h : registerCustom name b s = .ok t) :
    t = { s with customBlocks := claimName name b s.customBlocks } := by
  unfold registerCustom at h
  unfold claimName
  split at h
  · rename_i hb
    split at h
    · rename_i e he
      injection h with h1
      subst h1
      simp [hb, he]
    · rename_i he
      injection h with h1
      subst h1
      simp [hb, he]
  · rename_i hb
    injection h with h1
    subst h1
    simp [hb]

/-- A call of the capability probes that returns has made exactly the writes of
`writeFlags` and `claimName`, each within its slice. -/
theorem registerCapabilities_ok (rid : Nat) (name : String) (b : Block) (s t : Registry)
    (h : registerCapabilities rid name b s = .ok t) :
    t = { writeFlags rid b s with customBlocks := claimName name b s.customBlocks } ∧
      WritesInRange rid b s := by
  unfold registerCapabilities at h
  obtain ⟨s1, h1, h⟩ := andThen_ok _ _ _ h
  obtain ⟨s2, h2, h⟩ := andThen_ok _ _ _ h
  obtain ⟨s3, h3, h⟩ := andThen_ok _ _ _ h
  obtain ⟨s4, h4, h⟩ := andThen_ok _ _ _ h
  obtain ⟨s5, h5, h⟩ := andThen_ok _ _ _ h
  obtain ⟨s6, h6, h⟩ := andThen_ok _ _ _ h
  obtain ⟨e1, r1⟩ := registerDiffuser_ok rid b s s1 h1
  obtain ⟨e2, r2⟩ := registerEmitter_ok rid b s1 s2 h2
  obtain ⟨e3, r3⟩ := registerNBTer_ok rid b s2 s3 h3
  obtain ⟨e4, r4⟩ := registerRandomTicker_ok rid b s3 s4 h4
  obtain ⟨e5, r5⟩ := registerLiquid_ok rid b s4 s5 h5
  obtain ⟨e6, r6⟩ := registerLiquidDisplacer_ok rid b s5 s6 h6
  have e7 := registerCustom_ok name b s6 t h
  subst e1
  subst e2
  subst e3
  subst e4
  subst e5
  subst e6
  subst e7
  exact ⟨Eq.refl _, r1, r2, r3, r4, r5, r6⟩

theorem afterStateRegistration_flags (s : Registry) (b : Block) :
    (∀ r, flagsAt (afterStateRegistration s b) r = flagsAt s r) ∧
    flagLengths (afterStateRegistration s b) = flagLengths s ∧
    (afterStateRegistration s b).customBlocks = s.customBlocks := by
  unfold afterStateRegistration
  split
  · exact ⟨fun _ => Eq.refl _, Eq.refl _, Eq.refl _⟩
  · exact ⟨fun _ => Eq.refl _, Eq.refl _, Eq.refl _⟩

theorem afterStateRegistration_core (s : Registry) (b : Block) :
    SameCore s (afterStateRegistration s b) := by
  unfold afterStateRegistration
  split
  · exact registerBlockState_core s _ _
  · exact SameCore.rfl s

/-- The capability slices after any call of `RegisterBlock`, returned or not: their
lengths are kept, and the entries of a runtime ID are kept unless the call claimed the
slot of that ID, which then held the unregistered sentinel. -/
theorem RegisterBlock_state_flags (s : Registry) (b : Block) :
    flagLengths (RegisterBlock s b).state = flagLengths s ∧
    ∀ (r : Nat), ((∀ state, s.blocks[r]? ≠ some (Block.unknownBlock state)) ∨
        lookupState s.stateRuntimeIDs (stateKey b.name b.properties) ≠ some r) →
      flagsAt (RegisterBlock s b).state r = flagsAt s r := by
  obtain ⟨hf, hl, _⟩ := afterStateRegistration_flags s b
  rw [RegisterBlock_unfold]
  cases hlook : lookupState s.stateRuntimeIDs (stateKey b.name b.properties) with
  | none => exact ⟨hl, fun r _ => hf r⟩
  | some rid =>
    simp only []
    cases hslot : s.blocks[rid]? with
    | none => exact ⟨hl, fun r _ => hf r⟩
    | some slot =>
      cases slot with
      | value v0 => exact ⟨hl, fun r _ => hf r⟩
      | unknownBlock state =>
        simp only []
        cases hget : s.hashes.Get (int64 b.Hash) with
        | some other => exact ⟨hl, fun r _ => hf r⟩
        | none =>
          simp only []
          obtain ⟨hoff, hlen⟩ := registerCapabilities_off rid b.name b
            (claimSlot (afterStateRegistration s b) rid b)
          refine ⟨hlen.trans hl, fun r hr => ?_⟩
          have hne : r ≠ rid := by
            intro e
            subst e
            rcases hr with hr | hr
            · exact hr _ hslot
            · exact hr (Eq.refl _)
          rw [hoff r hne]
          exact hf r

/-- A call of `RegisterBlock` that returns has claimed the unregistered slot of the
block's catalog entry, indexed its hash, and made the capability writes. -/
theorem RegisterBlock_ok_form (s t : Registry) (b : Block) (h : RegisterBlock s b = .ok t) :
    ∃ rid state, lookupState s.stateRuntimeIDs (stateKey b.name b.properties) = some rid ∧
      s.blocks[rid]? = some (.unknownBlock state) ∧ s.hashes.Get (int64 b.Hash) = none ∧
      t = { writeFlags rid b (claimSlot (afterStateRegistration s b) rid b) with
            customBlocks := claimName b.name b s.customBlocks } ∧
      WritesInRange rid b s := by
  rw [RegisterBlock_unfold] at h
  cases hlook : lookupState s.stateRuntimeIDs (stateKey b.name b.properties) with
  | none => rw [hlook] at h; cases h
  | some rid =>
    rw [hlook] at h
    simp only [] at h
    cases hslot : s.blocks[rid]? with
    | none => rw [hslot] at h; cases h
    | some slot =>
      rw [hslot] at h
      cases slot with
      | value v0 => cases h
      | unknownBlock state =>
        simp only [] at h
        cases hget : s.hashes.Get (int64 b.Hash) with
        | some other => rw [hget] at h; cases h
        | none =>
          rw [hget] at h
          simp only [] at h
          obtain ⟨ht, hw⟩ := registerCapabilities_ok _ _ _ _ _ h
          refine ⟨rid, state, Eq.refl _, hslot, Eq.refl _, ?_, ?_⟩
          · rw [ht]
            have hcb : (claimSlot (afterStateRegistration s b) rid b).customBlocks =
                s.customBlocks := (afterStateRegistration_flags s b).2.2
            rw [hcb]
          · have hlen := (afterStateRegistration_flags s b).2.1
            simp only [flagLengths, List.cons.injEq, and_true] at hlen
            obtain ⟨l1, l2, l3, l4, l5, l6⟩ := hlen
            obtain ⟨w1, w2, w3, w4, w5, w6⟩ := hw
            refine ⟨fun x => ?_, fun x => ?_, fun x => ?_, fun x => ?_, fun x => ?_, fun x => ?_⟩
            · rw [← l1]; exact w1 x
            · rw [← l2]; exact w2 x
            · rw [← l3]; exact w3 x
            · rw [← l4]; exact w4 x
            · rw [← l5]; exact w5 x
            · rw [← l6]; exact w6 x

/-- A call of `RegisterBlock` that panics on line 100, 103 or 107, or on reading
`blocks[rid]`, leaves the tables as lines 92-95 left them. -/
theorem RegisterBlock_panicked_form (s st : Registry) (b : Block) (p : Panic)
    (h : RegisterBlock s b = .panicked p st) :
    st = afterStateRegistration s b ∨
    ∃ rid state, p = .indexOutOfRange rid ∧
      lookupState s.stateRuntimeIDs (stateKey b.name b.properties) = some rid ∧
      s.blocks[rid]? = some (.unknownBlock state) := by
  rw [RegisterBlock_unfold] at h
  cases hlook : lookupState s.stateRuntimeIDs (stateKey b.name b.properties) with
  | none =>
    rw [hlook] at h
    injection h with _ h2
    exact Or.inl h2.symm
  | some rid =>
    rw [hlook] at h
    simp only [] at h
    cases hslot : s.blocks[rid]? with
    | none =>
      rw [hslot] at h
      injection h with _ h2
      exact Or.inl h2.symm
    | some slot =>
      rw [hslot] at h
      cases slot with
      | value v0 =>
        injection h with _ h2
        exact Or.inl h2.symm
      | unknownBlock state =>
        simp only [] at h
        cases hget : s.hashes.Get (int64 b.Hash) with
        | some other =>
          rw [hget] at h
          injection h with _ h2
          exact Or.inl h2.symm
        | none =>
          rw [hget] at h
          simp only [] at h
          exact Or.inr ⟨rid, state, registerCapabilities_panicked _ _ _ _ _ _ h, Eq.refl _, hslot⟩

theorem afterStateRegistration_tables (s : Registry) (b : Block) :
    (afterStateRegistration s b).FilteringBlocks = s.FilteringBlocks ∧
    (afterStateRegistration s b).LightBlocks = s.LightBlocks ∧
    (afterStateRegistration s b).nbtBlocks = s.nbtBlocks ∧
    (afterStateRegistration s b).randomTickBlocks = s.randomTickBlocks ∧
    (afterStateRegistration s b).liquidBlocks = s.liquidBlocks ∧
    (afterStateRegistration s b).liquidDisplacingBlocks = s.liquidDisplacingBlocks := by
  unfold afterStateRegistration
  split
  · exact ⟨Eq.refl _, Eq.refl _, Eq.refl _, Eq.refl _, Eq.refl _, Eq.refl _⟩
  · exact ⟨Eq.refl _, Eq.refl _, Eq.refl _, Eq.refl _, Eq.refl _, Eq.refl _⟩

/-- The two ways a call of `RegisterBlock` ends: before the slot is claimed, with the
tables as lines 92-95 left them, or in the capability probes after the slot was
claimed. -/
theorem RegisterBlock_state_cases (s : Registry) (b : Block) :
    (RegisterBlock s b).state = afterStateRegistration s b ∨
    ∃ rid state, lookupState s.stateRuntimeIDs (stateKey b.name b.properties) = some rid ∧
      s.blocks[rid]? = some (.unknownBlock state) ∧ s.hashes.Get (int64 b.Hash) = none ∧
      (RegisterBlock s b).state =
        (registerCapabilities rid b.name b (claimSlot (afterStateRegistration s b) rid b)).state := by
  rw [RegisterBlock_unfold]
  cases hlook : lookupState s.stateRuntimeIDs (stateKey b.name b.properties) with
  | none => exact Or.inl (Eq.refl _)
  | some rid =>
    simp only []
    cases hslot : s.blocks[rid]? with
    | none => exact Or.inl (Eq.refl _)
    | some slot =>
      cases slot with
      | value v0 => exact Or.inl (Eq.refl _)
      | unknownBlock state =>
        simp only []
        cases hget : s.hashes.Get (int64 b.Hash) with
        | some other => exact Or.inl (Eq.refl _)
        | none => exact Or.inr ⟨rid, state, Eq.refl _, hslot, Eq.refl _, Eq.refl _⟩

theorem FlagsClear_initial (catalog : List (stateHash × Nat)) (states : List blockState)
    (airRID : Nat) : FlagsClear (Registry.initial catalog states airRID) := by
  constructor
  · intro m hm
    simp [flagLengths, Registry.initial] at hm
    simp [Registry.initial, hm]
  · intro r state hr
    have hlt : r < states.length := by
      have h1 := (List.getElem?_eq_some.mp hr).1
      simpa [Registry.initial] using h1
    simp [Registry.initial, hlt]

/-- The sentinel implements none of the probed interfaces: the capability probes write
nothing for it. -/
theorem registerCapabilities_unknownBlock (rid : Nat) (name : String) (state : blockState)
    (s : Registry) : registerCapabilities rid name (.unknownBlock state) s = .ok s := rfl

theorem FlagsClear_step (s : Registry) (c : Block) (h : FlagsClear s) :
    FlagsClear (RegisterBlock s c).state := by
  obtain ⟨hlen, hclear⟩ := h
  obtain ⟨hl2, _⟩ := RegisterBlock_state_flags s c
  have hblocks : (RegisterBlock s c).state.blocks.length = s.blocks.length ∧
      ∀ (r : Nat) (state : blockState),
        (RegisterBlock s c).state.blocks[r]? = some (Block.unknownBlock state) →
        flagsAt (RegisterBlock s c).state r = flagsAt s r ∧
        ∃ state0, s.blocks[r]? = some (Block.unknownBlock state0) := by
    rcases RegisterBlock_state_cases s c with h1 | ⟨rid, state0, hlook, hslot, _, h1⟩
    · rw [h1]
      have hb := (afterStateRegistration_core s c).2.1
      rw [hb]
      exact ⟨Eq.refl _, fun r state hr =>
        ⟨(afterStateRegistration_flags s c).1 r, state, hr⟩⟩
    · have hb := (registerCapabilities_core rid c.name c
        (claimSlot (afterStateRegistration s c) rid c)).2.1
      rw [← h1] at hb
      have hb2 : (RegisterBlock s c).state.blocks = s.blocks.set rid c := by
        rw [hb]
        show (afterStateRegistration s c).blocks.set rid c = _
        rw [(afterStateRegistration_core s c).2.1]
      refine ⟨by rw [hb2]; simp, fun r state hr => ?_⟩
      rw [hb2] at hr
      by_cases e : rid = r
      · subst e
        rw [getElem?_set_registered _ _ _ _ hslot] at hr
        injection hr with hr
        subst hr
        refine ⟨?_, state0, hslot⟩
        rw [h1, registerCapabilities_unknownBlock]
        exact (afterStateRegistration_flags s (.unknownBlock state)).1 rid
      · rw [List.getElem?_set_ne e] at hr
        refine ⟨?_, state, hr⟩
        rw [h1]
        have hoff := (registerCapabilities_off rid c.name c
          (claimSlot (afterStateRegistration s c) rid c)).1 r (Ne.symm e)
        rw [hoff]
        exact (afterStateRegistration_flags s c).1 r
  constructor
  · intro m hm
    rw [hl2] at hm
    rw [hblocks.1]
    exact hlen m hm
  · intro r state hr
    obtain ⟨hflags, state0, hs⟩ := hblocks.2 r state hr
    have h4 := hclear r state0 hs
    simp only [flagsAt, CapabilityFlags.mk.injEq] at hflags
    obtain ⟨_, _, f3, f4, f5, f6⟩ := hflags
    rw [f3, f4, f5, f6]
    exact h4

theorem Reachable_flagsClear (s : Registry) (h : Reachable s) : FlagsClear s := by
  induction h with
  | initial catalog states airRID => exact FlagsClear_initial catalog states airRID
  | register s b _ ih => exact FlagsClear_step s b ih

theorem BlockByRuntimeID_succ (fuel : Nat) (s : Registry) (rid : Nat) :
    BlockByRuntimeID (fuel + 1) s rid =
      match s.blocks[rid]? with
      | some x => some (x, true)
      | none =>
        match BlockByRuntimeID fuel s s.airRID with
        | none => none
        | some (b, _) => some (b, false) := by
  rw [BlockByRuntimeID]
  by_cases h : rid ≥ s.blocks.length
  · simp only [h, dite_true]
    rw [List.getElem?_eq_none h]
  · simp only [h, dite_false]
    have hlt : rid < s.blocks.length := by omega
    rw [List.getElem?_eq_getElem hlt]

theorem BlockByRuntimeID_congr (s t : Registry) (hb : t.blocks = s.blocks)
    (ha : t.airRID = s.airRID) :
    ∀ (fuel rid : Nat), BlockByRuntimeID fuel t rid = BlockByRuntimeID fuel s rid := by
  intro fuel
  induction fuel with
  | zero =>
    intro rid
    rw [BlockByRuntimeID, BlockByRuntimeID]
  | succ n ih =>
    intro rid
    rw [BlockByRuntimeID_succ, BlockByRuntimeID_succ, hb, ha, ih]

theorem BlockRuntimeID_congr (s t : Registry) (hc : t.stateRuntimeIDs = s.stateRuntimeIDs)
    (hh : t.hashes = s.hashes) (ha : t.airRID = s.airRID) (x : Option Block) :
    BlockRuntimeID t x = BlockRuntimeID s x := by
  unfold BlockRuntimeID slowBlockRuntimeID
  rw [hc, hh, ha]

theorem flags_kept_step (s : Registry) (v : BlockValue) (c : Block) (r : Nat)
    (h : s.blocks[r]? = some (.value v)) :
    (RegisterBlock s c).state.blocks[r]? = some (.value v) ∧
    flagsAt (RegisterBlock s c).state r = flagsAt s r := by
  constructor
  · rcases RegisterBlock_state s c with
      ⟨⟨_, hb, _, _⟩, _⟩ | ⟨rid, state, _, hslot, _, _, _, hb, _⟩
    · rw [hb]; exact h
    · have hne : rid ≠ r := by
        intro e
        rw [e, h] at hslot
        cases hslot
      rw [hb, List.getElem?_set_ne hne]
      exact h
  · refine (RegisterBlock_state_flags s c).2 r (Or.inl ?_)
    intro state
    rw [h]
    intro e
    cases e

theorem flags_kept_later (t u : Registry) (v : BlockValue) (r : Nat) (hl : Later t u)
    (h : t.blocks[r]? = some (.value v)) :
    u.blocks[r]? = some (.value v) ∧ flagsAt u r = flagsAt t r := by
  induction hl with
  | refl => exact ⟨h, Eq.refl _⟩
  | register w c _ ih =>
    obtain ⟨h1, h2⟩ := flags_kept_step w v c r ih.1
    exact ⟨h1, h2.trans ih.2⟩

theorem lookupCustom_append (m : List (String × Block)) (k n : String) (v : Block) :
    lookupCustom (m ++ [(k, v)]) n =
      match lookupCustom m n with
      | some e => some e
      | none => if k = n then some v else none := by
  induction m with
  | nil => simp [lookupCustom]
  | cons e rest ih =>
    obtain ⟨k0, v0⟩ := e
    by_cases h0 : k0 = n
    · simp [lookupCustom, h0]
    · simp [lookupCustom, h0, ih]

theorem ClaimedAt_BlockRuntimeID (s : Registry) (b : Block) (rid : Nat)
    (h : ClaimedAt s b rid) : BlockRuntimeID s (some b) = .ok rid := by
  obtain ⟨h1, h3, _⟩ := h
  unfold BlockRuntimeID
  simp only []
  split
  · rw [h3]
    simp only []
    rw [uint32_natCast rid (lookupState_lt _ _ _ h1)]
  · unfold slowBlockRuntimeID
    simp only [Block.EncodeBlock]
    rw [h1]

theorem not_unknown_of_hash (b : Block) (h : b.Hash ≠ MaxUint64) :
    b.isUnknownBlock = false := by
  cases b with
  | unknownBlock state => exact absurd (Hash_unknownBlock state) h
  | value v => rfl

theorem int64_Hash_ne_sentinel (b : Block) (h : b.Hash ≠ MaxUint64) :
    int64 b.Hash ≠ int64 MaxUint64 := by
  intro e
  have h2 := int64_injective _ _ e
  have h3 : b.Hash % 2 ^ 64 = b.Hash := by
    unfold Block.Hash
    exact Nat.mod_mod _ _
  have h4 : MaxUint64 % 2 ^ 64 = MaxUint64 := by decide
  rw [h3, h4] at h2
  exact h h2

/-! ## The claims -/

/-- C1 (round trip): when `RegisterBlock(b)` has returned, then in every registry that
further calls of `RegisterBlock` lead to, `BlockRuntimeID(b)` returns a runtime ID, and
`BlockByRuntimeID` of that ID returns found = true together with a block whose
`EncodeBlock` descriptor is that of `b`.  For a block of an implementing package the block
returned is `b` itself, and this holds from every registry, so also from one whose slots
all hold the unregistered sentinel and whose hash index is empty.  For a value of the
sentinel type the block returned is filed by the catalog under the same runtime ID as `b`,
which in a State Catalog (one runtime ID for each descriptor) makes its descriptor that
of `b`: the same name and the same property mapping. -/
theorem roundtrip_registered (s t u : Registry) (b : Block)
    (hreg : RegisterBlock s b = .ok t) (hlater : Later t u) :
    ∃ rid c, BlockRuntimeID u (some b) = .ok rid ∧
      (∀ fuel, BlockByRuntimeID (fuel + 1) u rid = some (c, true)) ∧
      lookupState u.stateRuntimeIDs (stateKey c.name c.properties) = some rid ∧
      lookupState u.stateRuntimeIDs (stateKey b.name b.properties) = some rid ∧
      (CatalogInjective u → stateKey c.name c.properties = stateKey b.name b.properties) ∧
      (b.isUnknownBlock = false → c.EncodeBlock = b.EncodeBlock ∧ c = b) := by
  obtain ⟨rid, hr⟩ := RegisterBlock_ok_claimedAt s t b hreg
  have hu := ClaimedAt_later t u b rid hlater hr
  have hid := ClaimedAt_BlockRuntimeID u b rid hu
  obtain ⟨h1, _, c, hc, hcl, hcb⟩ := hu
  refine ⟨rid, c, hid,
    fun fuel => BlockByRuntimeID_of_slot u rid fuel _ hc, hcl, h1,
    fun hinj => hinj _ _ rid hcl h1, fun hv => ?_⟩
  rw [hcb hv]
  exact ⟨Eq.refl _, Eq.refl _⟩

/-- Witness of C1: air is registered in the sample registry, slime after it. -/
theorem roundtrip_registered_witness :
    RegisterBlock sampleRegistry sampleAir = .ok airRegistry ∧
    ∃ rid c, BlockRuntimeID fullRegistry (some sampleAir) = .ok rid ∧
      (∀ fuel, BlockByRuntimeID (fuel + 1) fullRegistry rid = some (c, true)) ∧
      lookupState fullRegistry.stateRuntimeIDs (stateKey c.name c.properties) = some rid ∧
      lookupState fullRegistry.stateRuntimeIDs
        (stateKey sampleAir.name sampleAir.properties) = some rid ∧
      (CatalogInjective fullRegistry →
        stateKey c.name c.properties = stateKey sampleAir.name sampleAir.properties) ∧
      (sampleAir.isUnknownBlock = false →
        c.EncodeBlock = sampleAir.EncodeBlock ∧ c = sampleAir) :=
  ⟨by decide, roundtrip_registered sampleRegistry airRegistry fullRegistry sampleAir
    (by decide) (Later.register _ sampleSlime Later.refl)⟩

/-- C2 (uniqueness), as the code has it: in every registry reachable from the initial one
by calls of `RegisterBlock`, a block of an implementing package held by slot `r` resolves
to `r`; two distinct such blocks have different runtime IDs; two distinct runtime IDs never
hold blocks with the same hash unless both report the sentinel hash; and every entry of
the hash index under a key other than the sentinel maps the hash of a block held by a
slot to the one runtime ID whose slot holds that block. -/
theorem registered_unique (s : Registry) (h : Reachable s) :
    (∀ (r : Nat) (v : BlockValue), s.blocks[r]? = some (.value v) →
      BlockRuntimeID s (some (.value v)) = .ok r) ∧
    (∀ (r1 r2 : Nat) (v1 v2 : BlockValue), s.blocks[r1]? = some (.value v1) →
      s.blocks[r2]? = some (.value v2) →
      (v1 ≠ v2 → r1 ≠ r2 ∧
        BlockRuntimeID s (some (.value v1)) ≠ BlockRuntimeID s (some (.value v2))) ∧
      (r1 ≠ r2 → (Block.value v1).Hash ≠ (Block.value v2).Hash)) ∧
    (∀ (r1 r2 : Nat) (b1 b2 : Block), s.blocks[r1]? = some b1 → s.blocks[r2]? = some b2 →
      r1 ≠ r2 → b1.Hash ≠ MaxUint64 → b1.Hash ≠ b2.Hash) ∧
    (∀ k v, s.hashes.Get k = some v → k ≠ int64 MaxUint64 →
      ∃ (rid : Nat) (w : BlockValue), v = (rid : Int) ∧
      s.blocks[rid]? = some (.value w) ∧ int64 (Block.value w).Hash = k ∧
      ∀ (r2 : Nat) (w2 : BlockValue), s.blocks[r2]? = some (.value w2) →
        int64 (Block.value w2).Hash = k → r2 = rid) := by
  obtain ⟨hI, hS⟩ := Reachable_invariant s h
  have hres : ∀ (r : Nat) (v : BlockValue), s.blocks[r]? = some (.value v) →
      BlockRuntimeID s (some (.value v)) = .ok r :=
    fun r v hb => RegisteredAt_BlockRuntimeID s (.value v) r (hI r v hb)
  have hhash : ∀ (r1 r2 : Nat) (v1 v2 : BlockValue), s.blocks[r1]? = some (.value v1) →
      s.blocks[r2]? = some (.value v2) →
      int64 (Block.value v1).Hash = int64 (Block.value v2).Hash → r1 = r2 := by
    intro r1 r2 v1 v2 h1 h2 e
    have g1 := (hI r1 v1 h1).2.2
    have g2 := (hI r2 v2 h2).2.2
    rw [e, g2] at g1
    injection g1 with g
    exact (Int.ofNat_inj.mp g).symm
  refine ⟨hres, ?_, ?_, ?_⟩
  · intro r1 r2 v1 v2 h1 h2
    have hne : v1 ≠ v2 → r1 ≠ r2 := by
      intro hb e
      rw [e, h2] at h1
      injection h1 with h3
      injection h3 with h4
      exact hb h4.symm
    refine ⟨fun hb => ⟨hne hb, ?_⟩, ?_⟩
    · rw [hres r1 v1 h1, hres r2 v2 h2]
      intro e
      injection e with e2
      exact hne hb e2
    · intro hr e
      exact hr (hhash r1 r2 v1 v2 h1 h2 (by rw [e]))
  · intro r1 r2 b1 b2 h1 h2 hr hb e
    cases b1 with
    | unknownBlock state => exact hb (Hash_unknownBlock state)
    | value v1 =>
      cases b2 with
      | unknownBlock state => exact hb (e.trans (Hash_unknownBlock state))
      | value v2 => exact hr (hhash r1 r2 v1 v2 h1 h2 (by rw [e]))
  · intro k v hk hne
    obtain ⟨rid, w, hv, hs, hkey⟩ := hS k v hk hne
    refine ⟨rid, w, hv, hs, hkey, ?_⟩
    intro r2 w2 h2 hk2
    exact hhash r2 rid w2 w h2 hs (by rw [hk2, hkey])

/-- Witness of C2: the sample registry with air and slime registered. -/
theorem registered_unique_witness :
    Reachable fullRegistry ∧ BlockRuntimeID fullRegistry (some sampleSlime) = .ok 1 :=
  have hr : Reachable fullRegistry :=
    Reachable.register _ _ (Reachable.register _ _ (Reachable.initial _ _ _))
  ⟨hr, (registered_unique fullRegistry hr).1 1 (plainValue "minecraft:slime" [] 12)
    (by decide)⟩

/-- Counterexample to C2: `BlockByRuntimeID(0)` hands out the sentinel value of the air
state; `RegisterBlock` accepts it and leaves the slot claimable (line 102 tests the type of
the value stored), so the air block is accepted after it.  The two blocks are distinct,
both were registered, and both resolve to runtime ID 0; the hash index keeps the sentinel
hash of the first under runtime ID 0, whose slot now holds the second. -/
theorem sentinel_shares_runtime_id :
    BlockByRuntimeID 1 sampleRegistry 0 = some (unknownAir, true) ∧
    RegisterBlock sampleRegistry unknownAir = .ok reclaimedRegistry ∧
    RegisterBlock reclaimedRegistry sampleAir = .ok overwrittenRegistry ∧
    Reachable overwrittenRegistry ∧
    unknownAir ≠ sampleAir ∧
    BlockRuntimeID overwrittenRegistry (some unknownAir) = .ok 0 ∧
    BlockRuntimeID overwrittenRegistry (some sampleAir) = .ok 0 ∧
    overwrittenRegistry.hashes.Get (int64 unknownAir.Hash) = some 0 ∧
    overwrittenRegistry.blocks[0]? = some sampleAir ∧
    sampleAir.Hash ≠ unknownAir.Hash :=
  ⟨by decide, by decide, by decide,
    Reachable.register _ _ (Reachable.register _ _ (Reachable.initial _ _ _)),
    by decide, Eq.refl _, Eq.refl _, by decide, by decide, by decide⟩

/-- C3 (second registration of a descriptor), as the code has it: when `RegisterBlock(b)`
has returned for a block `b` that is not a value of the sentinel type, then in every
registry that further calls lead to, `RegisterBlock(c)` for a block `c` whose `EncodeBlock`
descriptor is that of `b` panics on line 103, "already registered", because the slot no
longer holds a value of the sentinel type; catalog, slots and hash index stay as they
were. -/
theorem register_twice_panics (s t u : Registry) (b c : Block)
    (hv : b.isUnknownBlock = false)
    (hreg : RegisterBlock s b = .ok t) (hlater : Later t u)
    (hdesc : c.EncodeBlock = b.EncodeBlock) :
    ∃ st, RegisterBlock u c = .panicked (.alreadyRegistered c.name c.properties) st ∧
      SameCore u st := by
  obtain ⟨rid, hr⟩ := RegisterBlock_ok_registeredAt s t b hreg
  obtain ⟨h1, h2, _⟩ := RegisteredAt_later t u b rid hlater hv hr
  obtain ⟨v, rfl⟩ := value_of_not_unknown b hv
  have hname : c.name = (Block.value v).name := congrArg Prod.fst hdesc
  have hprops : c.properties = (Block.value v).properties := congrArg Prod.snd hdesc
  have hl : lookupState u.stateRuntimeIDs (stateKey c.name c.properties) = some rid := by
    rw [hname, hprops]; exact h1
  refine ⟨_, RegisterBlock_of_registered u c v rid hl h2, ?_⟩
  split
  · exact registerBlockState_core u _ _
  · exact SameCore.rfl u

/-- Witness of C3: a second air block, after air and slime were registered. -/
theorem register_twice_panics_witness :
    sampleAir.isUnknownBlock = false ∧
    RegisterBlock sampleRegistry sampleAir = .ok airRegistry ∧
    otherAir.EncodeBlock = sampleAir.EncodeBlock ∧
    ∃ st, RegisterBlock fullRegistry otherAir =
      .panicked (.alreadyRegistered otherAir.name otherAir.properties) st ∧
      SameCore fullRegistry st :=
  ⟨by decide, by decide, by decide,
    register_twice_panics sampleRegistry airRegistry fullRegistry sampleAir otherAir
      (by decide) (by decide) (Later.register _ sampleSlime Later.refl) (by decide)⟩

/-- Counterexample to C3: the sentinel value of the air state, handed out by
`BlockByRuntimeID(0)`, is registered; the air block has the same descriptor, and its
registration afterwards returns instead of panicking, and rewrites the slot. -/
theorem sentinel_registered_then_block :
    BlockByRuntimeID 1 sampleRegistry 0 = some (unknownAir, true) ∧
    RegisterBlock sampleRegistry unknownAir = .ok reclaimedRegistry ∧
    Later reclaimedRegistry reclaimedRegistry ∧
    sampleAir.EncodeBlock = unknownAir.EncodeBlock ∧
    RegisterBlock reclaimedRegistry sampleAir = .ok overwrittenRegistry ∧
    reclaimedRegistry.blocks[0]? = some unknownAir ∧
    overwrittenRegistry.blocks[0]? = some sampleAir :=
  ⟨by decide, by decide, Later.refl, by decide, by decide, by decide, by decide⟩

/-- C4 (descriptor missing from the catalog): when the State Catalog has no entry for the
`EncodeBlock` descriptor of `b`, custom block or not, `RegisterBlock(b)` panics on line
100, "block state returned is not registered", and catalog, slots and hash index stay as
they were: no block is stored. -/
theorem register_uncatalogued_panics (s : Registry) (b : Block)
    (h : lookupState s.stateRuntimeIDs (stateKey b.EncodeBlock.1 b.EncodeBlock.2) = none) :
    ∃ st, RegisterBlock s b = .panicked (.stateNotRegistered b.name b.properties) st ∧
      st.blocks = s.blocks ∧ st.hashes = s.hashes ∧
      st.stateRuntimeIDs = s.stateRuntimeIDs := by
  have hs1 : SameCore s
      (if b.customBlock then registerBlockState s ⟨b.name, b.properties⟩ true else s) := by
    split
    · exact registerBlockState_core s _ _
    · exact SameCore.rfl s
  refine ⟨if b.customBlock then registerBlockState s ⟨b.name, b.properties⟩ true else s,
    ?_, hs1.2.1, hs1.2.2.1, hs1.1⟩
  unfold RegisterBlock
  simp only [Block.EncodeBlock] at h ⊢
  generalize (if b.customBlock = true then registerBlockState s ⟨b.name, b.properties⟩ true
    else s) = s1 at hs1 ⊢
  rw [← hs1.1] at h
  simp only [h]

/-- Witness of C4: a custom block whose state is not in the sample catalog. -/
theorem register_uncatalogued_panics_witness :
    lookupState airRegistry.stateRuntimeIDs
      (stateKey sampleCustom.EncodeBlock.1 sampleCustom.EncodeBlock.2) = none ∧
    ∃ st, RegisterBlock airRegistry sampleCustom =
      .panicked (.stateNotRegistered sampleCustom.name sampleCustom.properties) st ∧
      st.blocks = airRegistry.blocks ∧ st.hashes = airRegistry.hashes ∧
      st.stateRuntimeIDs = airRegistry.stateRuntimeIDs :=
  ⟨by decide, register_uncatalogued_panics airRegistry sampleCustom (by decide)⟩

/-- C5, as the code has it: `RegisterBlock` rejects a block on the hash check (line 107)
exactly when the block passed the catalog check and the slot check and its hash, sentinel
or not, is already a key of the hash index; and since a registered block is indexed under
its hash whatever that hash is, every later block with the same hash that reaches the
hash check is rejected, a block reporting the sentinel hash included. -/
theorem hash_check_any_hash (s : Registry) (b : Block) :
    ((∃ h other st, RegisterBlock s b = .panicked (.hashRegistered h other) st) ↔
      ∃ rid state other,
        lookupState s.stateRuntimeIDs (stateKey b.name b.properties) = some rid ∧
        s.blocks[rid]? = some (.unknownBlock state) ∧
        s.hashes.Get (int64 b.Hash) = some other) ∧
    (∀ (t u : Registry) (c : Block) (rid : Nat) (state : blockState),
      RegisterBlock s b = .ok t → Later t u →
      c.Hash = b.Hash →
      lookupState u.stateRuntimeIDs (stateKey c.name c.properties) = some rid →
      u.blocks[rid]? = some (.unknownBlock state) →
      ∃ h other st, RegisterBlock u c = .panicked (.hashRegistered h other) st) := by
  refine ⟨RegisterBlock_hashRegistered_iff s b, ?_⟩
  intro t u c rid state hreg hlater hhash hl hslot
  obtain ⟨r, hr⟩ := RegisterBlock_ok_claimedAt s t b hreg
  have hu := ClaimedAt_later t u b r hlater hr
  refine (RegisterBlock_hashRegistered_iff u c).mpr ⟨rid, state, (r : Int), hl, hslot, ?_⟩
  rw [hhash]
  exact hu.2.1

/-- Counterexample to C5: air and slime are different catalog states, both unregistered,
and both blocks report the sentinel hash; the first is registered, the second is rejected
on the hash check. -/
theorem sentinel_hash_rejected :
    sentinelAir.Hash = MaxUint64 ∧ sentinelSlime.Hash = MaxUint64 ∧
    RegisterBlock sampleRegistry sentinelAir = .ok sentinelRegistry ∧
    lookupState sentinelRegistry.stateRuntimeIDs
      (stateKey sentinelSlime.name sentinelSlime.properties) = some 1 ∧
    sentinelRegistry.blocks[1]? = some (.unknownBlock ⟨"minecraft:slime", []⟩) ∧
    RegisterBlock sentinelRegistry sentinelSlime =
      .panicked (.hashRegistered (-1) 0) sentinelRegistry := by
  decide

/-- C6, as the code has it: in a registry reached by calls of `RegisterBlock` from the
initial one, `BlockRuntimeID` panics for a non-nil block exactly when either its hash is
not the sentinel and no block held by a slot reports that hash (a slot that no registered
block has claimed holds a sentinel value, which reports the sentinel hash), or its hash
is the sentinel and the catalog has no entry for its descriptor.  A block that was never
registered gets a runtime ID in every other case. -/
theorem BlockRuntimeID_panics_iff (s : Registry) (h : Reachable s) (b : Block) :
    (∃ p, BlockRuntimeID s (some b) = .error p) ↔
    (b.Hash ≠ MaxUint64 ∧
      ∀ (r : Nat) (c : Block), s.blocks[r]? = some c → c.Hash ≠ b.Hash) ∨
    (b.Hash = MaxUint64 ∧
      lookupState s.stateRuntimeIDs (stateKey b.name b.properties) = none) := by
  obtain ⟨hI, hS⟩ := Reachable_invariant s h
  unfold BlockRuntimeID
  simp only []
  by_cases hm : b.Hash = MaxUint64
  · simp only [hm, ne_eq, not_true_eq_false, if_false, false_and, false_or, true_and]
    unfold slowBlockRuntimeID
    simp only [Block.EncodeBlock]
    cases hl : lookupState s.stateRuntimeIDs (stateKey b.name b.properties) with
    | none => simp
    | some rid => simp
  · simp only [hm, ne_eq, not_false_eq_true, if_true, true_and, false_and, or_false]
    cases hg : s.hashes.Get (int64 b.Hash) with
    | none =>
      simp only [Except.error.injEq, exists_eq', true_iff]
      intro r c hslot e
      cases c with
      | unknownBlock state => exact hm (e.symm.trans (Hash_unknownBlock state))
      | value v =>
        have g := (hI r v hslot).2.2
        rw [e, hg] at g
        cases g
    | some v =>
      simp only []
      constructor
      · rintro ⟨p, hp⟩
        cases hp
      · intro hall
        obtain ⟨rid, w, _, hslot, hkey⟩ := hS _ v hg (int64_Hash_ne_sentinel b hm)
        exact absurd (Hash_eq_of_int64 (.value w) b hkey) (hall rid (.value w) hslot)

/-- Witness of C6: a block that is not in the catalog and shares no hash panics. -/
theorem BlockRuntimeID_panics_iff_witness :
    Reachable fullRegistry ∧
    BlockRuntimeID fullRegistry (some strayBlock) = .error (.hashNotFound 77) ∧
    ((strayBlock.Hash ≠ MaxUint64 ∧ ∀ (r : Nat) (c : Block),
        fullRegistry.blocks[r]? = some c → c.Hash ≠ strayBlock.Hash) ∨
      (strayBlock.Hash = MaxUint64 ∧
        lookupState fullRegistry.stateRuntimeIDs
          (stateKey strayBlock.name strayBlock.properties) = none)) :=
  have hr : Reachable fullRegistry :=
    Reachable.register _ _ (Reachable.register _ _ (Reachable.initial _ _ _))
  ⟨hr, Eq.refl _, (BlockRuntimeID_panics_iff fullRegistry hr strayBlock).mp ⟨_, Eq.refl _⟩⟩

/-- Counterexample to C6: nothing is registered in the sample registry, yet a block that
reports the sentinel hash and encodes as slime gets the runtime ID 1. -/
theorem unregistered_block_resolves :
    sampleRegistry.blocks = [Block.unknownBlock ⟨"minecraft:air", []⟩,
      Block.unknownBlock ⟨"minecraft:slime", []⟩] ∧
    sampleRegistry.hashes = [] ∧
    BlockRuntimeID sampleRegistry (some sentinelSlime) = .ok 1 :=
  ⟨by decide, by decide, Eq.refl _⟩

/-- C7 (fast and slow path): for a non-nil block whose hash is not the sentinel,
`BlockRuntimeID` returns the entry of the hash index for that hash, as a `uint32`, and
panics on line 147 when the index has none, without looking at the catalog; for a non-nil
block whose hash is the sentinel it returns the catalog entry of the block's descriptor
and panics on line 159 when there is none.  The conversion to `uint32` leaves every
runtime ID that `RegisterBlock` stores as it is. -/
theorem BlockRuntimeID_paths (s : Registry) (b : Block) :
    (b.Hash ≠ MaxUint64 →
      BlockRuntimeID s (some b) =
        match s.hashes.Get (int64 b.Hash) with
        | some rid => .ok (uint32 rid)
        | none => .error (.hashNotFound b.Hash)) ∧
    (b.Hash = MaxUint64 →
      BlockRuntimeID s (some b) =
        match lookupState s.stateRuntimeIDs (stateKey b.name b.properties) with
        | some rid => .ok rid
        | none => .error (.nameNotFound b.name b.properties)) ∧
    (∀ (key : stateHash) (rid : Nat), lookupState s.stateRuntimeIDs key = some rid →
      uint32 (rid : Int) = rid) := by
  refine ⟨?_, ?_, ?_⟩
  · intro hne
    unfold BlockRuntimeID
    simp only [hne, ne_eq, not_false_eq_true, if_true]
  · intro he
    unfold BlockRuntimeID slowBlockRuntimeID
    simp only [he, ne_eq, not_true_eq_false, if_false, Block.EncodeBlock]
    cases lookupState s.stateRuntimeIDs (stateKey b.name b.properties) <;> rfl
  · intro key rid hl
    exact uint32_natCast rid (lookupState_lt _ _ _ hl)

/-- Out of range, with the air slot in range: for a runtime ID outside `[0, N)`, and
provided `airRID` is inside `[0, N)`, `air()` returns the block that slot `airRID` holds
and `BlockByRuntimeID` returns that block together with found = false.  The block is
whatever the air slot holds: a sentinel value, or the block registered there. -/
theorem BlockByRuntimeID_out_of_range (s : Registry) (rid : Nat)
    (hrid : s.blocks.length ≤ rid) (hair : s.airRID < s.blocks.length) :
    ∃ x, s.blocks[s.airRID]? = some x ∧
      ∀ fuel, air (fuel + 1) s = some x ∧
        BlockByRuntimeID (fuel + 2) s rid = some (x, false) := by
  have hx : s.blocks[s.airRID]? = some s.blocks[s.airRID] := List.getElem?_eq_getElem hair
  refine ⟨s.blocks[s.airRID], hx, fun fuel => ?_⟩
  have ha : BlockByRuntimeID (fuel + 1) s s.airRID = some (s.blocks[s.airRID], true) :=
    BlockByRuntimeID_of_slot s s.airRID fuel _ hx
  constructor
  · unfold air
    rw [ha]
  · rw [BlockByRuntimeID]
    simp only [ge_iff_le, hrid, dite_true]
    rw [ha]

/-- Out of range in the sample registry of two slots, air registered: runtime ID 7. -/
theorem BlockByRuntimeID_out_of_range_witness :
    fullRegistry.blocks.length ≤ 7 ∧ fullRegistry.airRID < fullRegistry.blocks.length ∧
    ∃ x, fullRegistry.blocks[fullRegistry.airRID]? = some x ∧
      ∀ fuel, air (fuel + 1) fullRegistry = some x ∧
        BlockByRuntimeID (fuel + 2) fullRegistry 7 = some (x, false) :=
  ⟨by decide, by decide, BlockByRuntimeID_out_of_range fullRegistry 7 (by decide) (by decide)⟩

/-- C8 (out of range), at the failing input: in the registry without slots the air runtime
ID 0 is itself outside `[0, N)`; runtime ID 5 is outside too, and the call
`BlockByRuntimeID(5)` does not return the air block with found = false: the calls of
`BlockByRuntimeID` and `air()` nest without end, and no number of nested calls yields a
result. -/
theorem BlockByRuntimeID_empty_no_result :
    ¬ ∃ fuel r, BlockByRuntimeID fuel emptyRegistry 5 = some r := by
  rintro ⟨fuel, r, h⟩
  have hnone := BlockByRuntimeID_no_result emptyRegistry (by decide) fuel 5 (by decide)
  rw [hnone] at h
  cases h

/-- C9, as the code has it: a result of `BlockByRuntimeID` has found = true exactly when
the runtime ID is in `[0, N)`; for such an ID the call returns, and the block returned is
what the slot holds.  That is the instance stored by `RegisterBlock` once a call has
claimed the slot (and for good, when that instance is not itself a value of the sentinel
type), and a sentinel value before: in a registry reached from the initial one a slot
holds either a sentinel value or a block registered under that very ID. -/
theorem BlockByRuntimeID_found (s : Registry) (rid : Nat) :
    (∀ (fuel : Nat) (x : Block) (found : Bool),
      BlockByRuntimeID fuel s rid = some (x, found) →
        (found = true ↔ rid < s.blocks.length) ∧ (found = true → s.blocks[rid]? = some x)) ∧
    (rid < s.blocks.length →
      ∃ x, s.blocks[rid]? = some x ∧ ∀ fuel, BlockByRuntimeID (fuel + 1) s rid = some (x, true)) ∧
    (∀ (t u : Registry) (b : Block), RegisterBlock s b = .ok t →
      lookupState s.stateRuntimeIDs (stateKey b.name b.properties) = some rid →
      (∀ fuel, BlockByRuntimeID (fuel + 1) t rid = some (b, true)) ∧
      (b.isUnknownBlock = false → Later t u →
        ∀ fuel, BlockByRuntimeID (fuel + 1) u rid = some (b, true))) ∧
    (Reachable s → ∀ (x : Block), s.blocks[rid]? = some x →
      x.isUnknownBlock = true ∨ (x.isUnknownBlock = false ∧ RegisteredAt s x rid)) := by
  refine ⟨fun fuel x found h => BlockByRuntimeID_found_iff fuel s rid x found h, ?_, ?_, ?_⟩
  · intro hlt
    have hx : s.blocks[rid]? = some s.blocks[rid] := List.getElem?_eq_getElem hlt
    exact ⟨_, hx, fun fuel => BlockByRuntimeID_of_slot s rid fuel _ hx⟩
  · intro t u b hreg hl
    obtain ⟨r, hr⟩ := RegisterBlock_ok_registeredAt s t b hreg
    obtain ⟨r2, state, hl2, _, _, hc, _, _, _⟩ := RegisterBlock_ok s t b hreg
    have h1 := hr.1
    rw [hc, hl] at h1
    injection h1 with h1
    subst h1
    refine ⟨fun fuel => BlockByRuntimeID_of_slot t rid fuel _ hr.2.1, ?_⟩
    intro hv hlater fuel
    exact BlockByRuntimeID_of_slot u rid fuel _ (RegisteredAt_later t u b rid hlater hv hr).2.1
  · intro hreach x hx
    cases x with
    | unknownBlock state => exact Or.inl (Eq.refl _)
    | value v => exact Or.inr ⟨Eq.refl _, (Reachable_invariant s hreach).1 rid v hx⟩

/-- Counterexample to C9: no block is registered in the sample registry, and
`BlockByRuntimeID(1)` returns found = true with the sentinel value of the slime state. -/
theorem found_without_registration :
    sampleRegistry.hashes = [] ∧
    sampleRegistry.blocks = [Block.unknownBlock ⟨"minecraft:air", []⟩,
      Block.unknownBlock ⟨"minecraft:slime", []⟩] ∧
    BlockByRuntimeID 1 sampleRegistry 1 =
      some (.unknownBlock ⟨"minecraft:slime", []⟩, true) := by
  decide

/-- C10, as the code has it: `BlockByName` returns found = false (and the `nil` block)
exactly when the State Catalog has no runtime ID for the descriptor; when it has one that
is a slot index, the call returns found = true with what that slot holds, the registered
instance or else a sentinel value.  In particular, once `RegisterBlock(b)` has returned,
`BlockByName` of the descriptor of `b` returns `b`, also for a block without properties,
and keeps returning it after further calls when `b` is not itself a value of the sentinel
type. -/
theorem BlockByName_result (s : Registry) (name : String) (properties : Properties) :
    ((∃ x, BlockByName s name properties = .ok (x, false)) ↔
      lookupState s.stateRuntimeIDs (stateKey name properties) = none) ∧
    (lookupState s.stateRuntimeIDs (stateKey name properties) = none →
      BlockByName s name properties = .ok (none, false)) ∧
    (∀ (rid : Nat) (x : Block),
      lookupState s.stateRuntimeIDs (stateKey name properties) = some rid →
      s.blocks[rid]? = some x → BlockByName s name properties = .ok (some x, true)) ∧
    (∀ (t u : Registry) (b : Block), RegisterBlock s b = .ok t →
      BlockByName t b.name b.properties = .ok (some b, true) ∧
      (b.isUnknownBlock = false → Later t u →
        BlockByName u b.name b.properties = .ok (some b, true))) := by
  refine ⟨?_, ?_, ?_, ?_⟩
  · unfold BlockByName
    cases hl : lookupState s.stateRuntimeIDs (stateKey name properties) with
    | none => simp
    | some rid =>
      simp only []
      cases hs : s.blocks[rid]? with
      | none => simp
      | some x => simp
  · intro hl
    unfold BlockByName
    simp only [hl]
  · intro rid x hl hs
    exact BlockByName_of_slot s name properties rid x hl hs
  · intro t u b hreg
    obtain ⟨r, hr⟩ := RegisterBlock_ok_registeredAt s t b hreg
    refine ⟨BlockByName_of_slot t b.name b.properties r _ hr.1 hr.2.1, ?_⟩
    intro hv hlater
    obtain ⟨h1, h2, _⟩ := RegisteredAt_later t u b r hlater hv hr
    exact BlockByName_of_slot u b.name b.properties r _ h1 h2

/-- Counterexample to C10: the sample catalog lists slime under 1 and no block is
registered; `BlockByName("minecraft:slime", {})` returns found = true with the sentinel
value of the slime state. -/
theorem BlockByName_without_registration :
    sampleRegistry.blocks = [Block.unknownBlock ⟨"minecraft:air", []⟩,
      Block.unknownBlock ⟨"minecraft:slime", []⟩] ∧
    BlockByName sampleRegistry "minecraft:slime" [] =
      .ok (some (.unknownBlock ⟨"minecraft:slime", []⟩), true) :=
  ⟨by decide, Eq.refl _⟩

/-- C11 (capability flags): in a registry reached by calls of `RegisterBlock` from the
initial one, after `RegisterBlock(b)` has returned and claimed runtime ID `rid`, the NBT,
random-tick, liquid and liquid-displacing flags at `rid` are true exactly when `b`
implements `NBTer`, `RandomTicker`, `Liquid` and `LiquidDisplacer`; the light emission and
diffusion entries at `rid` are the level `b` reports when `b` implements `lightEmitter`
or `lightDiffuser`, and are left as they were when it does not. -/
theorem flags_reflect_interfaces (s t : Registry) (b : Block) (hs : Reachable s)
    (hreg : RegisterBlock s b = .ok t) :
    ∃ rid, lookupState s.stateRuntimeIDs (stateKey b.name b.properties) = some rid ∧
      t.blocks[rid]? = some b ∧
      t.nbtBlocks[rid]? = some b.nbter ∧
      t.randomTickBlocks[rid]? = some b.randomTicker ∧
      t.liquidBlocks[rid]? = some b.liquid ∧
      t.liquidDisplacingBlocks[rid]? = some b.liquidDisplacer ∧
      t.LightBlocks[rid]? =
        (match b.lightEmitter with
         | some l => some (l % 256)
         | none => s.LightBlocks[rid]?) ∧
      t.FilteringBlocks[rid]? =
        (match b.lightDiffuser with
         | some l => some (l % 256)
         | none => s.FilteringBlocks[rid]?) := by
  obtain ⟨rid, state, hlook, hslot, _, ht, w1, w2, w3, w4, w5, w6⟩ :=
    RegisterBlock_ok_form s t b hreg
  obtain ⟨_, hclear⟩ := Reachable_flagsClear s hs
  obtain ⟨c3, c4, c5, c6⟩ := hclear rid state hslot
  obtain ⟨e1, e2, e3, e4, e5, e6⟩ := afterStateRegistration_tables s b
  have hb : (afterStateRegistration s b).blocks = s.blocks := (afterStateRegistration_core s b).2.1
  subst ht
  refine ⟨rid, hlook, ?_, ?_, ?_, ?_, ?_, ?_, ?_⟩
  · show ((afterStateRegistration s b).blocks.set rid b)[rid]? = _
    rw [hb]
    exact getElem?_set_registered _ _ _ _ hslot
  · show (if b.nbter then (afterStateRegistration s b).nbtBlocks.set rid true
      else (afterStateRegistration s b).nbtBlocks)[rid]? = _
    rw [e3]
    cases hx : b.nbter with
    | true => simp [w3 hx]
    | false => simpa using c3
  · show (if b.randomTicker then (afterStateRegistration s b).randomTickBlocks.set rid true
      else (afterStateRegistration s b).randomTickBlocks)[rid]? = _
    rw [e4]
    cases hx : b.randomTicker with
    | true => simp [w4 hx]
    | false => simpa using c4
  · show (if b.liquid then (afterStateRegistration s b).liquidBlocks.set rid true
      else (afterStateRegistration s b).liquidBlocks)[rid]? = _
    rw [e5]
    cases hx : b.liquid with
    | true => simp [w5 hx]
    | false => simpa using c5
  · show (if b.liquidDisplacer then
        (afterStateRegistration s b).liquidDisplacingBlocks.set rid true
      else (afterStateRegistration s b).liquidDisplacingBlocks)[rid]? = _
    rw [e6]
    cases hx : b.liquidDisplacer with
    | true => simp [w6 hx]
    | false => simpa using c6
  · show (match b.lightEmitter with
      | some l => (afterStateRegistration s b).LightBlocks.set rid (l % 256)
      | none => (afterStateRegistration s b).LightBlocks)[rid]? = _
    rw [e2]
    cases hx : b.lightEmitter with
    | none => rfl
    | some l =>
      have hlt := w2 (by rw [hx]; simp)
      simp [hlt]
  · show (match b.lightDiffuser with
      | some l => (afterStateRegistration s b).FilteringBlocks.set rid (l % 256)
      | none => (afterStateRegistration s b).FilteringBlocks)[rid]? = _
    rw [e1]
    cases hx : b.lightDiffuser with
    | none => rfl
    | some l =>
      have hlt := w1 (by rw [hx]; simp)
      simp [hlt]

/-- Witness of C11: a block that implements only `Liquid` has the liquid flag and no
other. -/
theorem flags_reflect_interfaces_witness :
    Reachable waterRegistry ∧ RegisterBlock waterRegistry sampleWater = .ok wetRegistry ∧
    flagsAt wetRegistry 1 =
      { diffusion := some 0, emission := some 0, nbt := some false, randomTick := some false,
        liquid := some true, liquidDisplacing := some false } ∧
    ∃ rid, lookupState waterRegistry.stateRuntimeIDs
        (stateKey sampleWater.name sampleWater.properties) = some rid ∧
      wetRegistry.blocks[rid]? = some sampleWater ∧
      wetRegistry.nbtBlocks[rid]? = some sampleWater.nbter ∧
      wetRegistry.randomTickBlocks[rid]? = some sampleWater.randomTicker ∧
      wetRegistry.liquidBlocks[rid]? = some sampleWater.liquid ∧
      wetRegistry.liquidDisplacingBlocks[rid]? = some sampleWater.liquidDisplacer ∧
      wetRegistry.LightBlocks[rid]? =
        (match sampleWater.lightEmitter with
         | some l => some (l % 256)
         | none => waterRegistry.LightBlocks[rid]?) ∧
      wetRegistry.FilteringBlocks[rid]? =
        (match sampleWater.lightDiffuser with
         | some l => some (l % 256)
         | none => waterRegistry.FilteringBlocks[rid]?) :=
  ⟨Reachable.initial _ _ _, by decide, by decide,
    flags_reflect_interfaces waterRegistry wetRegistry sampleWater (Reachable.initial _ _ _)
      (by decide)⟩

/-- C12 (failed registration): when `RegisterBlock(b)` panics because the descriptor is
not in the catalog (line 100), the slot is occupied (line 103) or the hash is indexed
(line 107), then the State Catalog, the slots, the hash index, `airRID`, the six
capability slices and the custom block index are as before the call, and
`BlockRuntimeID` and `BlockByRuntimeID` answer every query as before, so each block
registered earlier still resolves to its runtime ID and is still returned for it. -/
theorem failed_registration_atomic (s st : Registry) (b : Block) (p : Panic)
    (h : RegisterBlock s b = .panicked p st)
    (hp : (∃ n pr, p = .stateNotRegistered n pr) ∨ (∃ n pr, p = .alreadyRegistered n pr) ∨
      (∃ hash other, p = .hashRegistered hash other)) :
    st.stateRuntimeIDs = s.stateRuntimeIDs ∧ st.blocks = s.blocks ∧ st.hashes = s.hashes ∧
    st.airRID = s.airRID ∧
    st.FilteringBlocks = s.FilteringBlocks ∧ st.LightBlocks = s.LightBlocks ∧
    st.nbtBlocks = s.nbtBlocks ∧ st.randomTickBlocks = s.randomTickBlocks ∧
    st.liquidBlocks = s.liquidBlocks ∧
    st.liquidDisplacingBlocks = s.liquidDisplacingBlocks ∧
    st.customBlocks = s.customBlocks ∧
    (∀ x, BlockRuntimeID st x = BlockRuntimeID s x) ∧
    (∀ fuel rid, BlockByRuntimeID fuel st rid = BlockByRuntimeID fuel s rid) ∧
    (∀ c rid, RegisteredAt s c rid → RegisteredAt st c rid) := by
  have hst : st = afterStateRegistration s b := by
    rcases RegisterBlock_panicked_form s st b p h with h1 | ⟨rid, state, h1, _, _⟩
    · exact h1
    · subst h1
      rcases hp with ⟨_, _, e⟩ | ⟨_, _, e⟩ | ⟨_, _, e⟩ <;> cases e
  subst hst
  obtain ⟨hc, hb, hh, ha⟩ := afterStateRegistration_core s b
  obtain ⟨e1, e2, e3, e4, e5, e6⟩ := afterStateRegistration_tables s b
  refine ⟨hc, hb, hh, ha, e1, e2, e3, e4, e5, e6, (afterStateRegistration_flags s b).2.2,
    fun x => BlockRuntimeID_congr s _ hc hh ha x,
    fun fuel rid => BlockByRuntimeID_congr s _ hb ha fuel rid, ?_⟩
  intro c rid hr
  exact ⟨by rw [hc]; exact hr.1, by rw [hb]; exact hr.2.1, by rw [hh]; exact hr.2.2⟩

/-- Witness of C12: a custom block whose state the catalog does not list is refused. -/
theorem failed_registration_atomic_witness :
    RegisterBlock airRegistry sampleCustom =
      .panicked (.stateNotRegistered "custom:lamp" [("lit", .bool true)]) refusedRegistry ∧
    refusedRegistry.stateRuntimeIDs = airRegistry.stateRuntimeIDs ∧
    refusedRegistry.blocks = airRegistry.blocks ∧
    refusedRegistry.hashes = airRegistry.hashes :=
  have h := failed_registration_atomic airRegistry refusedRegistry sampleCustom
    (.stateNotRegistered "custom:lamp" [("lit", .bool true)]) (by decide)
    (Or.inl ⟨_, _, Eq.refl _⟩)
  ⟨by decide, h.1, h.2.1, h.2.2.1⟩

/-- C13 (the catalog is read only): after any call of `RegisterBlock`, returned or not,
custom block or not, the State Catalog is the one before the call, so every descriptor
has the runtime ID it had; the number of slots is unchanged; and a call that returns has
claimed the runtime ID that the catalog already listed for the block's descriptor. -/
theorem catalog_unchanged (s : Registry) (b : Block) :
    (RegisterBlock s b).state.stateRuntimeIDs = s.stateRuntimeIDs ∧
    (∀ key, lookupState (RegisterBlock s b).state.stateRuntimeIDs key =
      lookupState s.stateRuntimeIDs key) ∧
    (RegisterBlock s b).state.blocks.length = s.blocks.length ∧
    (∀ t, RegisterBlock s b = .ok t →
      ∃ rid, lookupState s.stateRuntimeIDs (stateKey b.name b.properties) = some rid ∧
        rid < s.blocks.length ∧ t.blocks[rid]? = some b) := by
  have hcat : (RegisterBlock s b).state.stateRuntimeIDs = s.stateRuntimeIDs := by
    rcases RegisterBlock_state s b with ⟨⟨hc, _, _, _⟩, _⟩ | ⟨_, _, _, _, _, hc, _, _, _⟩
    · exact hc
    · exact hc
  refine ⟨hcat, fun key => by rw [hcat], ?_, ?_⟩
  · rcases RegisterBlock_state s b with ⟨⟨_, hb, _, _⟩, _⟩ | ⟨_, _, _, _, _, _, _, hb, _⟩
    · rw [hb]
    · rw [hb, List.length_set]
  · intro t ht
    obtain ⟨rid, state, hl, hslot, _, _, _, hb, _⟩ := RegisterBlock_ok s t b ht
    refine ⟨rid, hl, ?_, ?_⟩
    · rcases List.getElem?_eq_some.mp hslot with ⟨hlt, _⟩
      exact hlt
    · rw [hb]
      exact getElem?_set_registered _ _ _ _ hslot

/-- C14 (written once), as the code has it: a call `RegisterBlock(b)` that returns and
claims runtime ID `rid` leaves the slot and the capability entries of every other runtime
ID as they were and leaves the hash index entry of every hash other than that of `b` as it
was; and when `b` is not a value of the sentinel type, no later call of `RegisterBlock`
changes the slot or the capability entries at `rid`. -/
theorem written_once (s t : Registry) (b : Block) (hreg : RegisterBlock s b = .ok t) :
    ∃ rid, lookupState s.stateRuntimeIDs (stateKey b.name b.properties) = some rid ∧
      t.blocks[rid]? = some b ∧
      (∀ (r : Nat), r ≠ rid → t.blocks[r]? = s.blocks[r]? ∧ flagsAt t r = flagsAt s r) ∧
      (∀ (key : Int), key ≠ int64 b.Hash → t.hashes.Get key = s.hashes.Get key) ∧
      (b.isUnknownBlock = false → ∀ (u : Registry), Later t u →
        u.blocks[rid]? = t.blocks[rid]? ∧ flagsAt u rid = flagsAt t rid) := by
  obtain ⟨rid, state, hl, hslot, _, _, _, hb, hh⟩ := RegisterBlock_ok s t b hreg
  have hst : (RegisterBlock s b).state = t := by rw [hreg]; rfl
  have hreg2 : t.blocks[rid]? = some b := by
    rw [hb]; exact getElem?_set_registered _ _ _ _ hslot
  refine ⟨rid, hl, hreg2, ?_, ?_, ?_⟩
  · intro r hr
    constructor
    · rw [hb, List.getElem?_set_ne (Ne.symm hr)]
    · have hf := (RegisterBlock_state_flags s b).2 r (Or.inr (by
        rw [hl]
        intro e
        injection e with e
        exact hr e.symm))
      rw [hst] at hf
      exact hf
  · intro key hk
    rw [hh, IntIntMap.Get_Put_other _ _ _ _ hk]
  · intro hv u hu
    obtain ⟨v, rfl⟩ := value_of_not_unknown b hv
    obtain ⟨h1, h2⟩ := flags_kept_later t u v rid hu hreg2
    exact ⟨by rw [h1, hreg2], h2⟩

/-- Witness of C14: air is registered in the sample registry, slime after it. -/
theorem written_once_witness :
    RegisterBlock sampleRegistry sampleAir = .ok airRegistry ∧
    ∃ rid, lookupState sampleRegistry.stateRuntimeIDs
        (stateKey sampleAir.name sampleAir.properties) = some rid ∧
      airRegistry.blocks[rid]? = some sampleAir ∧
      (∀ (r : Nat), r ≠ rid → airRegistry.blocks[r]? = sampleRegistry.blocks[r]? ∧
        flagsAt airRegistry r = flagsAt sampleRegistry r) ∧
      (∀ (key : Int), key ≠ int64 sampleAir.Hash →
        airRegistry.hashes.Get key = sampleRegistry.hashes.Get key) ∧
      (sampleAir.isUnknownBlock = false → ∀ (u : Registry), Later airRegistry u →
        u.blocks[rid]? = airRegistry.blocks[rid]? ∧ flagsAt u rid = flagsAt airRegistry rid) :=
  ⟨by decide, written_once sampleRegistry airRegistry sampleAir (by decide)⟩

/-- Counterexample to C14: the sentinel value of the air state, handed out by
`BlockByRuntimeID(0)`, is registered and claims runtime ID 0; the slot stays claimable,
and the later call for an air block that implements `RandomTicker` returns, replaces the
block in slot 0 and sets the random-tick flag at 0. -/
theorem sentinel_slot_rewritten :
    BlockByRuntimeID 1 sampleRegistry 0 = some (unknownAir, true) ∧
    RegisterBlock sampleRegistry unknownAir = .ok reclaimedRegistry ∧
    lookupState sampleRegistry.stateRuntimeIDs
      (stateKey unknownAir.name unknownAir.properties) = some 0 ∧
    RegisterBlock reclaimedRegistry tickingAir = .ok tickingRegistry ∧
    Later reclaimedRegistry tickingRegistry ∧
    reclaimedRegistry.blocks[0]? = some unknownAir ∧
    tickingRegistry.blocks[0]? = some tickingAir ∧
    tickingRegistry.blocks[0]? ≠ reclaimedRegistry.blocks[0]? ∧
    (flagsAt reclaimedRegistry 0).randomTick = some false ∧
    (flagsAt tickingRegistry 0).randomTick = some true ∧
    flagsAt tickingRegistry 0 ≠ flagsAt reclaimedRegistry 0 :=
  ⟨by decide, by decide, by decide, by decide, Later.register _ tickingAir Later.refl,
    by decide, by decide, by decide, by decide, by decide, by decide⟩

/-- C15 (custom block index): a call `RegisterBlock(c)` that returns, for a block that
implements `CustomBlock` and encodes under name `n`, leaves the entry of `n` as it was
when there was one and makes it `c` when there was none; it leaves the entries of all
other names as they were; a call that returns for a block that does not implement
`CustomBlock` leaves the index unchanged; and `CustomBlocks()` is the index. -/
theorem custom_first_wins (s t : Registry) (c : Block) (hreg : RegisterBlock s c = .ok t) :
    (c.customBlock = true →
      (∀ e, lookupCustom s.customBlocks c.EncodeBlock.1 = some e →
        t.customBlocks = s.customBlocks ∧
        lookupCustom t.customBlocks c.EncodeBlock.1 = some e) ∧
      (lookupCustom s.customBlocks c.EncodeBlock.1 = none →
        lookupCustom t.customBlocks c.EncodeBlock.1 = some c)) ∧
    (∀ (n : String), n ≠ c.EncodeBlock.1 →
      lookupCustom t.customBlocks n = lookupCustom s.customBlocks n) ∧
    (c.customBlock = false → t.customBlocks = s.customBlocks) ∧
    CustomBlocks t = t.customBlocks := by
  obtain ⟨rid, state, _, _, _, ht, _⟩ := RegisterBlock_ok_form s t c hreg
  have hcb : t.customBlocks = claimName c.name c s.customBlocks := by rw [ht]
  simp only [Block.EncodeBlock]
  refine ⟨fun hc => ⟨fun e he => ?_, fun hn => ?_⟩, fun n hn => ?_, fun hc => ?_, Eq.refl _⟩
  · have h1 : t.customBlocks = s.customBlocks := by
      rw [hcb]; unfold claimName; simp [hc, he]
    exact ⟨h1, by rw [h1]; exact he⟩
  · rw [hcb]
    unfold claimName
    simp only [hc, if_true, hn]
    rw [lookupCustom_append, hn]
    simp
  · rw [hcb]
    unfold claimName
    split
    · split
      · rfl
      · rw [lookupCustom_append]
        have hne : ¬ c.name = n := fun e => hn e.symm
        cases lookupCustom s.customBlocks n <;> simp [hne]
    · rfl
  · rw [hcb]
    unfold claimName
    simp [hc]

/-- Witness of C15: the custom slime block claims its name in the empty index. -/
theorem custom_first_wins_witness :
    RegisterBlock sampleRegistry customSlime = .ok customRegistry ∧
    CustomBlocks customRegistry = [("minecraft:slime", customSlime)] ∧
    (∀ (n : String), n ≠ customSlime.EncodeBlock.1 →
      lookupCustom customRegistry.customBlocks n = lookupCustom sampleRegistry.customBlocks n) :=
  ⟨by decide, by decide,
    (custom_first_wins sampleRegistry customRegistry customSlime (by decide)).2.1⟩

/-- C16 (the nil block): `BlockRuntimeID(nil)` returns `airRID` in every registry; it does
not panic, and its result is the same in any two registries with the same `airRID`,
whatever their hash index and catalog hold. -/
theorem BlockRuntimeID_nil (s : Registry) :
    BlockRuntimeID s none = .ok s.airRID ∧
    (∀ (t : Registry), t.airRID = s.airRID → BlockRuntimeID t none = BlockRuntimeID s none) := by
  refine ⟨Eq.refl _, fun t ht => ?_⟩
  unfold BlockRuntimeID
  simp only [ht]

/-- C18 (fast path and slow path agree): when `RegisterBlock(b)` has returned for a block
whose hash is not the sentinel, then in every registry that further calls lead to, the
runtime ID that `BlockRuntimeID(b)` takes from the hash index is the one that
`slowBlockRuntimeID(b)` takes from the State Catalog. -/
theorem fast_agrees_with_slow (s t u : Registry) (b : Block)
    (hreg : RegisterBlock s b = .ok t) (hlater : Later t u) (hh : b.Hash ≠ MaxUint64) :
    ∃ (rid : Nat), u.hashes.Get (int64 b.Hash) = some (rid : Int) ∧
      BlockRuntimeID u (some b) = .ok (uint32 (rid : Int)) ∧
      slowBlockRuntimeID u b = .ok rid ∧
      BlockRuntimeID u (some b) = slowBlockRuntimeID u b := by
  obtain ⟨rid, hr⟩ := RegisterBlock_ok_registeredAt s t b hreg
  obtain ⟨h1, _, h3⟩ := RegisteredAt_later t u b rid hlater (not_unknown_of_hash b hh) hr
  have hslow : slowBlockRuntimeID u b = .ok rid := by
    unfold slowBlockRuntimeID
    simp only [Block.EncodeBlock, h1]
  have hfast : BlockRuntimeID u (some b) = .ok (uint32 (rid : Int)) := by
    unfold BlockRuntimeID
    simp only [hh, ne_eq, not_false_eq_true, if_true, h3]
  refine ⟨rid, h3, hfast, hslow, ?_⟩
  rw [hfast, hslow, uint32_natCast rid (lookupState_lt _ _ _ h1)]

/-- Witness of C18: slime, registered after air, with the hash 12. -/
theorem fast_agrees_with_slow_witness :
    RegisterBlock airRegistry sampleSlime = .ok fullRegistry ∧
    sampleSlime.Hash ≠ MaxUint64 ∧
    ∃ (rid : Nat), fullRegistry.hashes.Get (int64 sampleSlime.Hash) = some (rid : Int) ∧
      BlockRuntimeID fullRegistry (some sampleSlime) = .ok (uint32 (rid : Int)) ∧
      slowBlockRuntimeID fullRegistry sampleSlime = .ok rid ∧
      BlockRuntimeID fullRegistry (some sampleSlime) =
        slowBlockRuntimeID fullRegistry sampleSlime :=
  ⟨by decide, by decide,
    fast_agrees_with_slow airRegistry fullRegistry fullRegistry sampleSlime (by decide)
      Later.refl (by decide)⟩

/-- C17 (termination), as the code has it: `BlockByRuntimeID(rid)` returns exactly when
`rid` is in `[0, N)` or `airRID` is in `[0, N)`.  When neither is, for instance for every
runtime ID in the registry without slots, `BlockByRuntimeID` calls `air()`, which calls
`BlockByRuntimeID(airRID)`, which calls `air()` again, and no number of nested calls
yields a result; `air()` itself returns exactly when `airRID` is in `[0, N)`. -/
theorem BlockByRuntimeID_returns_iff (s : Registry) (rid : Nat) :
    ((∃ fuel r, BlockByRuntimeID fuel s rid = some r) ↔
      (rid < s.blocks.length ∨ s.airRID < s.blocks.length)) ∧
    ((∃ fuel r, air fuel s = some r) ↔ s.airRID < s.blocks.length) ∧
    (¬ ∃ fuel r, BlockByRuntimeID fuel emptyRegistry rid = some r) := by
  have hdiv : ∀ (t : Registry), t.blocks.length ≤ t.airRID →
      ∀ (fuel r : Nat), t.blocks.length ≤ r → BlockByRuntimeID fuel t r = none :=
    fun t ht => BlockByRuntimeID_no_result t ht
  have hslot : ∀ (r : Nat), r < s.blocks.length →
      ∀ fuel, BlockByRuntimeID (fuel + 1) s r = some (s.blocks[r]?.getD (.unknownBlock ⟨"", []⟩), true) := by
    intro r hr fuel
    have hx : s.blocks[r]? = some s.blocks[r] := List.getElem?_eq_getElem hr
    rw [BlockByRuntimeID_of_slot s r fuel _ hx, hx]
    rfl
  refine ⟨⟨?_, ?_⟩, ⟨?_, ?_⟩, ?_⟩
  · rintro ⟨fuel, r, h⟩
    by_contra hcon
    have h1 : s.blocks.length ≤ rid := by omega
    have h2 : s.blocks.length ≤ s.airRID := by omega
    rw [hdiv s h2 fuel rid h1] at h
    cases h
  · intro h
    by_cases hr : rid < s.blocks.length
    · exact ⟨1, _, hslot rid hr 0⟩
    · have ha : s.airRID < s.blocks.length := by
        rcases h with h | h
        · exact absurd h hr
        · exact h
      refine ⟨2, (s.blocks[s.airRID]?.getD (.unknownBlock ⟨"", []⟩), false), ?_⟩
      rw [BlockByRuntimeID_succ, List.getElem?_eq_none (by omega), hslot s.airRID ha 0]
  · rintro ⟨fuel, r, h⟩
    by_contra hcon
    have h2 : s.blocks.length ≤ s.airRID := by omega
    unfold air at h
    rw [hdiv s h2 fuel s.airRID h2] at h
    cases h
  · intro ha
    refine ⟨1, s.blocks[s.airRID]?.getD (.unknownBlock ⟨"", []⟩), ?_⟩
    unfold air
    rw [hslot s.airRID ha 0]
  · rintro ⟨fuel, r, h⟩
    rw [hdiv emptyRegistry (by decide) fuel rid (by simp [emptyRegistry, Registry.initial])] at h
    cases h

end World

namespace block

theorem wall_EncodeBlock (d : Int) :
    (Banner.ofAttach (WallAttachment d)).EncodeBlock =
      ("minecraft:wall_banner", [("facing_direction", .int32 (int32 (d + 2)))]) := rfl

theorem standing_EncodeBlock (o : Int) :
    (Banner.ofAttach (StandingAttachment o)).EncodeBlock =
      ("minecraft:standing_banner", [("ground_sign_direction", .int32 (int32 o))]) := rfl

theorem int32_small (o : Nat) (h : o < 16) : int32 (o : Int) = (o : Int) := by
  unfold int32
  omega

theorem allBanners_descriptors_nodup (directions : List Int) (hnodup : directions.Nodup)
    (hsmall : ∀ d ∈ directions, int32 (d + 2) = d + 2) :
    ((allBanners directions).map Banner.EncodeBlock).Nodup := by
  unfold allBanners
  rw [List.map_append, List.map_map, List.map_map]
  refine List.Nodup.append ?_ ?_ ?_
  · refine List.Nodup.map_on ?_ hnodup
    intro x hx y hy hxy
    simp only [Function.comp, wall_EncodeBlock, hsmall x hx, hsmall y hy, Prod.mk.injEq,
      true_and, List.cons.injEq, and_true, World.PropValue.int32.injEq] at hxy
    omega
  · decide
  · intro e h1 h2
    simp only [List.mem_map, Function.comp, wall_EncodeBlock, standing_EncodeBlock] at h1 h2
    obtain ⟨d, _, hd⟩ := h1
    obtain ⟨o, _, ho⟩ := h2
    rw [← ho] at hd
    have hname : ("minecraft:wall_banner" : String) = "minecraft:standing_banner" :=
      congrArg Prod.fst hd
    exact absurd hname (by decide)

theorem allBanners_wall (directions : List Int) (i : Nat) (d : Int)
    (h : directions[i]? = some d) :
    (allBanners directions)[i]? = some (Banner.ofAttach (WallAttachment d)) := by
  have hlt : i < directions.length := (List.getElem?_eq_some.mp h).1
  unfold allBanners
  rw [List.getElem?_append_left (by simpa using hlt), List.getElem?_map, h]
  rfl

theorem allBanners_standing (directions : List Int) (o : Nat) (h : o < 16) :
    (allBanners directions)[directions.length + o]? =
      some (Banner.ofAttach (StandingAttachment (o : Int))) := by
  unfold allBanners
  rw [List.getElem?_append_right (by rw [List.length_map]; omega), List.length_map,
    Nat.add_sub_cancel_left, List.getElem?_map, List.getElem?_range h]
  rfl

/-- C19 (all banners): with `cube.Directions()` a list of four distinct directions whose
`facing + 2` fits an `int32`, `allBanners` returns 20 banners: first the wall banner of
each direction, in order, encoded as "minecraft:wall_banner" with `facing_direction` the
direction plus 2, then the standing banner of each orientation 0 to 15, encoded as
"minecraft:standing_banner" with `ground_sign_direction` the orientation.  The 20
descriptors are pairwise distinct, `EncodeBlock` does not depend on `Colour`, `Patterns`
or `Illager`, and in a registry reached from the initial one, blocks registered with the
descriptors of two different banners of the list have different runtime IDs. -/
theorem allBanners_all (directions : List Int) (hlen : directions.length = 4)
    (hnodup : directions.Nodup) (hsmall : ∀ d ∈ directions, int32 (d + 2) = d + 2) :
    (allBanners directions).length = 20 ∧
    (∀ (i : Nat) (d : Int), directions[i]? = some d →
      (allBanners directions)[i]? = some (Banner.ofAttach (WallAttachment d)) ∧
      (Banner.ofAttach (WallAttachment d)).EncodeBlock =
        ("minecraft:wall_banner", [("facing_direction", .int32 (d + 2))])) ∧
    (∀ (o : Nat), o < 16 →
      (allBanners directions)[4 + o]? = some (Banner.ofAttach (StandingAttachment (o : Int))) ∧
      (Banner.ofAttach (StandingAttachment (o : Int))).EncodeBlock =
        ("minecraft:standing_banner", [("ground_sign_direction", .int32 (o : Int))])) ∧
    ((allBanners directions).map Banner.EncodeBlock).Nodup ∧
    (∀ (b : Banner) (c : Colour) (ps : List Nat) (ill : Bool),
      ({ b with Colour := c, Patterns := ps, Illager := ill } : Banner).EncodeBlock =
        b.EncodeBlock) ∧
    (∀ (u : World.Registry) (b1 b2 : Banner) (B1 B2 : World.BlockValue) (r1 r2 : Nat),
      World.Reachable u → b1 ∈ allBanners directions → b2 ∈ allBanners directions →
      b1 ≠ b2 → (World.Block.value B1).EncodeBlock = b1.EncodeBlock →
      (World.Block.value B2).EncodeBlock = b2.EncodeBlock →
      u.blocks[r1]? = some (.value B1) → u.blocks[r2]? = some (.value B2) →
      r1 ≠ r2 ∧ World.BlockRuntimeID u (some (.value B1)) ≠
        World.BlockRuntimeID u (some (.value B2))) := by
  have hnd := allBanners_descriptors_nodup directions hnodup hsmall
  refine ⟨?_, ?_, ?_, hnd, fun _ _ _ _ => rfl, ?_⟩
  · unfold allBanners
    rw [List.length_append, List.length_map, List.length_map, List.length_range, hlen]
  · intro i d hd
    have hmem : d ∈ directions := List.getElem?_mem hd
    refine ⟨allBanners_wall directions i d hd, ?_⟩
    rw [wall_EncodeBlock, hsmall d hmem]
  · intro o ho
    refine ⟨?_, ?_⟩
    · rw [← hlen]
      exact allBanners_standing directions o ho
    · rw [standing_EncodeBlock, int32_small o ho]
  · intro u b1 b2 B1 B2 r1 r2 hu hb1 hb2 hne h1 h2 hs1 hs2
    have hdesc : b1.EncodeBlock ≠ b2.EncodeBlock := by
      intro e
      exact hne (List.inj_on_of_nodup_map hnd hb1 hb2 e)
    have hB : B1 ≠ B2 := by
      intro e
      rw [e, h2] at h1
      exact hdesc h1.symm
    have hr : r1 ≠ r2 := by
      intro e
      rw [e, hs2] at hs1
      injection hs1 with h3
      injection h3 with h4
      exact hB h4.symm
    obtain ⟨hI, _⟩ := World.Reachable_invariant u hu
    refine ⟨hr, ?_⟩
    rw [World.RegisteredAt_BlockRuntimeID u (.value B1) r1 (hI r1 B1 hs1),
      World.RegisteredAt_BlockRuntimeID u (.value B2) r2 (hI r2 B2 hs2)]
    intro e
    injection e with e2
    exact hr e2

/-- Witness of C19: the four directions numbered 0 to 3. -/
theorem allBanners_all_witness :
    sampleDirections.length = 4 ∧ sampleDirections.Nodup ∧
    (allBanners sampleDirections).length = 20 ∧
    ((allBanners sampleDirections).map Banner.EncodeBlock).Nodup ∧
    (allBanners sampleDirections)[3]? = some (Banner.ofAttach (WallAttachment 3)) ∧
    (Banner.ofAttach (WallAttachment 3)).EncodeBlock =
      ("minecraft:wall_banner", [("facing_direction", .int32 (3 + 2))]) :=
  have h := allBanners_all sampleDirections (by decide) (by decide) (by decide)
  ⟨by decide, by decide, h.1, h.2.2.2.1, h.2.1 3 3 (by decide)⟩

theorem bits16_lt (x : Int) : bits16 x < 2 ^ 16 ∧ ((bits16 x : Nat) : Int) = x % 2 ^ 16 := by
  unfold bits16
  have h0 : 0 ≤ x % 2 ^ 16 := Int.emod_nonneg x (by norm_num)
  have h1 : x % 2 ^ 16 < 2 ^ 16 := Int.emod_lt_of_pos x (by norm_num)
  have h2 : (((x % 2 ^ 16).toNat : Nat) : Int) = x % 2 ^ 16 := Int.toNat_of_nonneg h0
  constructor
  · omega
  · exact h2

theorem bits16_ofBits16 (p : Nat) : bits16 (ofBits16 p) = p % 2 ^ 16 := by
  obtain ⟨_, h2⟩ := bits16_lt (ofBits16 p)
  have hp : p % 2 ^ 16 < 2 ^ 16 := Nat.mod_lt _ (by norm_num)
  unfold ofBits16 at h2 ⊢
  split at h2 <;> rename_i hc <;> simp only [hc, if_true, if_false] <;> omega

theorem ofBits16_small (p : Nat) (h : p < 2 ^ 15) : ofBits16 p = (p : Int) := by
  unfold ofBits16
  have h1 : p % 2 ^ 16 = p := Nat.mod_eq_of_lt (by omega)
  rw [h1]
  have h2 : p < 2 ^ 15 := h
  rw [if_pos h2]

/-- The low four bits of the flipped pattern: `^x & 0xf` is `15 - x mod 16`. -/
theorem and16_not16 (x : Int) : and16 (not16 x) 0xf = 15 - x % 16 := by
  obtain ⟨hlt, hx⟩ := bits16_lt x
  have hb15 : bits16 0xf = 15 := by decide
  have hnot : bits16 (not16 x) = 2 ^ 16 - 1 - bits16 x := by
    unfold not16
    rw [bits16_ofBits16]
    exact Nat.mod_eq_of_lt (by omega)
  have hand : (2 ^ 16 - 1 - bits16 x) &&& 15 = (2 ^ 16 - 1 - bits16 x) % 16 :=
    Nat.and_pow_two_sub_one_eq_mod _ 4
  unfold and16
  rw [hnot, hb15, hand]
  have hsm : (2 ^ 16 - 1 - bits16 x) % 16 < 2 ^ 15 := by omega
  rw [ofBits16_small _ hsm]
  omega

theorem int16_small (v : Int) (h0 : 0 ≤ v) (h1 : v < 2 ^ 15) : int16 v = v := by
  obtain ⟨hlt, hx⟩ := bits16_lt v
  unfold int16
  have hb : ((bits16 v : Nat) : Int) = v := by omega
  have hs : bits16 v < 2 ^ 15 := by omega
  rw [ofBits16_small _ hs, hb]

theorem invertColour_eq (c : Colour) : invertColour c = 15 - ((c.Uint8 : Nat) : Int) % 16 := by
  unfold invertColour
  have hu : c.Uint8 < 2 ^ 8 := Nat.mod_lt _ (by norm_num)
  rw [int16_small _ (by omega) (by omega), and16_not16]

theorem invertIndex_eq (id : Int) :
    uint8 (and16 (not16 id) 0xf) < 16 ∧
      ((uint8 (and16 (not16 id) 0xf) : Nat) : Int) = 15 - id % 16 := by
  rw [and16_not16]
  unfold uint8
  have h0 : 0 ≤ (15 - id % 16) % 2 ^ 8 := Int.emod_nonneg _ (by norm_num)
  have h2 : ((((15 - id % 16) % 2 ^ 8).toNat : Nat) : Int) = (15 - id % 16) % 2 ^ 8 :=
    Int.toNat_of_nonneg h0
  constructor <;> omega

/-- C20 (banner colour inversion): for a colour with numeric ID `u` in 0..15,
`invertColour` is `15 - u`, a number in 0..15; for every `int16` value `id` the index
`uint8(^id & 0xf)` that `invertColourID` computes is in 0..15 and equals `15 - (id mod 16)`,
so with the 16 colours of `item.Colours()` the index is never out of range; and with each
colour at the index of its ID, `invertColourID(invertColour(c))` is `c` for each of the
16 colours, and so is the colour `DecodeNBT` reads from the "Base" that `EncodeNBT`
wrote. -/
theorem colour_inversion (colours : List Colour) (hlen : colours.length = 16)
    (htable : ∀ (i : Nat) (c : Colour), colours[i]? = some c → c.Uint8 = i) :
    (∀ (c : Colour), c.Uint8 < 16 →
      invertColour c = 15 - ((c.Uint8 : Nat) : Int) ∧
      0 ≤ invertColour c ∧ invertColour c ≤ 15) ∧
    (∀ (id : Int), uint8 (and16 (not16 id) 0xf) < 16 ∧
      ((uint8 (and16 (not16 id) 0xf) : Nat) : Int) = 15 - id % 16 ∧
      ∃ c, invertColourID colours id = some c) ∧
    (∀ (u : Nat) (c : Colour), u < 16 → colours[u]? = some c →
      invertColourID colours (invertColour c) = some c ∧
      ∀ (a : Attachment) (ps : List Nat) (ill : Bool),
        Banner.decodeColour colours
          (Banner.encodeBase { Colour := c, Attach := a, Patterns := ps, Illager := ill }) =
          some c) := by
  refine ⟨?_, ?_, ?_⟩
  · intro c hc
    rw [invertColour_eq]
    omega
  · intro id
    obtain ⟨h1, h2⟩ := invertIndex_eq id
    refine ⟨h1, h2, ?_⟩
    unfold invertColourID
    have hlt : uint8 (and16 (not16 id) 0xf) < colours.length := by omega
    exact ⟨_, List.getElem?_eq_getElem hlt⟩
  · intro u c hu hc
    have hid : c.Uint8 = u := htable u c hc
    have hinv : invertColour c = 15 - (u : Int) := by
      rw [invertColour_eq, hid]
      omega
    have hround : invertColourID colours (invertColour c) = some c := by
      obtain ⟨h1, h2⟩ := invertIndex_eq (invertColour c)
      unfold invertColourID
      have hidx : uint8 (and16 (not16 (invertColour c)) 0xf) = u := by
        rw [hinv] at h2 ⊢
        omega
      rw [hidx]
      exact hc
    refine ⟨hround, fun a ps ill => ?_⟩
    unfold Banner.decodeColour Banner.encodeBase
    have h32 : int32 (invertColour c) = invertColour c := by
      rw [hinv]
      unfold int32
      omega
    have h16 : int16 (invertColour c) = invertColour c := by
      rw [hinv]
      exact int16_small _ (by omega) (by omega)
    show invertColourID colours (int16 (int32 (invertColour c))) = some c
    rw [h32, h16]
    exact hround

/-- Witness of C20: the sixteen colours numbered 0 to 15, and the colour 3. -/
theorem colour_inversion_witness :
    sampleColours.length = 16 ∧ invertColour ⟨3⟩ = 12 ∧
    invertColourID sampleColours (invertColour ⟨3⟩) = some ⟨3⟩ :=
  have htable : ∀ (i : Nat) (c : Colour), sampleColours[i]? = some c → c.Uint8 = i := by
    intro i c hc
    unfold sampleColours at hc
    rw [List.getElem?_map] at hc
    by_cases hi : i < 16
    · rw [List.getElem?_range hi] at hc
      injection hc with hc
      subst hc
      unfold Colour.Uint8
      show i % 2 ^ 8 = i
      omega
    · rw [List.getElem?_eq_none (by rw [List.length_range]; omega)] at hc
      cases hc
  ⟨by decide, by decide,
    ((colour_inversion sampleColours (by decide) htable).2.2 3 ⟨3⟩ (by decide) (by decide)).1⟩

end block
